import Mathlib

/-! The todo-app backend (`backend/server.js`) and the registration form of its frontend
(`my-todo/src/App.jsx`): shallow embedding and contract proofs.

The Express handlers of `server.js` are embedded as pure functions from the state of
the server and the request to the response and the next state.  The two MongoDB
collections are lists in natural (insertion) order.

What `server.js` leaves to libraries is treated as follows.

* `jsonwebtoken`, `bcrypt` and the cast to `Date` depend on cryptography, the clock or
  the JavaScript date parser: they are the fields of `Lib`, and every theorem holds for
  every `Lib`.  Which of several matching documents `findOne` returns is MongoDB's
  choice and a field of `Lib` too; the other lookups filter on a uniquely indexed path
  (`_id`, `email`), where at most one stored document matches.
* What Mongoose derives from the two schemas written in `server.js` is modelled
  concretely: casting to `String`, `Boolean` and `ObjectId`, `trim`, `required`,
  `default`, `enum`, the unique indexes, and the `_id` path that Mongoose adds to every
  schema.  Setters (`trim`) also run on the values of query filters.
* Values generated per request (the fresh `_id` of a new document, the salt, the time)
  are arguments of the handlers.
* Request bodies are JSON objects whose values at the schema paths are scalars; arrays,
  nested objects and keys that are not schema paths are outside the model.  Failures of
  the connection to the database are outside the model as well.
-/

namespace TodoApp

/-! ## JavaScript strings -/

/-- ECMAScript `WhiteSpace` and `LineTerminator` code points: what `String.prototype.trim`
strips, and therefore what the schema option `trim: true` strips. -/
def isJsWhitespace (c : Char) : Bool :=
  c.toNat == 0x09 || c.toNat == 0x0A || c.toNat == 0x0B || c.toNat == 0x0C ||
  c.toNat == 0x0D || c.toNat == 0x20 || c.toNat == 0xA0 || c.toNat == 0x1680 ||
  (0x2000 ≤ c.toNat && c.toNat ≤ 0x200A) || c.toNat == 0x2028 || c.toNat == 0x2029 ||
  c.toNat == 0x202F || c.toNat == 0x205F || c.toNat == 0x3000 || c.toNat == 0xFEFF

/-- Trimming on the list of characters: drop leading, then trailing white space. -/
def trimChars (l : List Char) : List Char :=
  (((l.dropWhile isJsWhitespace).reverse).dropWhile isJsWhitespace).reverse

/-- The method `String.prototype.trim`. -/
def jsTrim (s : String) : String := ⟨trimChars s.data⟩

/-- The method `s.replace(pat, rep)` with a string pattern, on character lists: only the
first occurrence of `pat` is replaced. -/
def replaceFirstChars (pat rep : List Char) : List Char → List Char
  | [] => if pat.isEmpty then rep else []
  | c :: cs =>
    if pat.isPrefixOf (c :: cs) then rep ++ (c :: cs).drop pat.length
    else c :: replaceFirstChars pat rep cs

/-- The method `s.replace(pat, rep)` for a string pattern. -/
def jsReplace (s pat rep : String) : String := ⟨replaceFirstChars pat.data rep.data s.data⟩

/-! ## JSON values and Mongoose casting -/

/-- A MongoDB `ObjectId`, as the 96-bit number its 24 hexadecimal digits denote. -/
abbrev ObjectId := Nat

/-- A JSON value found under a key of `req.body` (after `express.json()`), or a claim
of a decoded token.  Scalars only: arrays and objects are outside this model.  Numbers
are the integers of magnitude below `2 ^ 53`, which JavaScript holds exactly and for
which `String(n)` is the decimal numeral; other numbers are outside this model. -/
inductive JVal where
  | null
  | bool (b : Bool)
  | num (n : Int)
  | str (s : String)
  deriving DecidableEq, Repr

/-- Value of one hexadecimal digit. -/
def hexDigit (c : Char) : Option Nat :=
  if 48 ≤ c.toNat ∧ c.toNat ≤ 57 then some (c.toNat - 48)
  else if 97 ≤ c.toNat ∧ c.toNat ≤ 102 then some (c.toNat - 87)
  else if 65 ≤ c.toNat ∧ c.toNat ≤ 70 then some (c.toNat - 55)
  else none

/-- Value of a string of hexadecimal digits, most significant digit first. -/
def parseHex : List Char → Nat → Option Nat
  | [], acc => some acc
  | c :: cs, acc =>
    match hexDigit c with
    | none => none
    | some d => parseHex cs (16 * acc + d)

/-- The constructor `new ObjectId(s)`: defined on strings of exactly 24 hexadecimal
digits; `none` is the exception that Mongoose reports as a `CastError`. -/
def parseObjectId (s : String) : Option ObjectId :=
  if s.data.length = 24 then parseHex s.data 0 else none

/-- The conversion `String(v)` of a scalar. -/
def jsToString : JVal → String
  | .null => "null"
  | .bool true => "true"
  | .bool false => "false"
  | .num n => toString n
  | .str s => s

/-- Mongoose cast to `String` (`castString`): `null` stays `null` (`none`), every other
scalar becomes its string. -/
def castString : JVal → Option String
  | .null => none
  | v => some (jsToString v)

/-- The setter chain of a `{ type: String, trim: true }` path: cast, then trim. -/
def castTrim (v : JVal) : Option String := (castString v).map jsTrim

/-- Mongoose cast to `Boolean` (`castBoolean`): `true, 'true', 1, '1', 'yes'` and
`false, 'false', 0, '0', 'no'` convert, `null` stays `null` (`some none`), anything else
is a `CastError` (`none`). -/
def castBoolean : JVal → Option (Option Bool)
  | .null => some none
  | .bool b => some (some b)
  | .num n => if n = 1 then some (some true) else if n = 0 then some (some false) else none
  | .str s =>
    if s = "true" ∨ s = "1" ∨ s = "yes" then some (some true)
    else if s = "false" ∨ s = "0" ∨ s = "no" then some (some false)
    else none

/-- Mongoose cast to `ObjectId` (`castObjectId`): `new ObjectId(value.toString())`.
`none` stands for both a `CastError` and the value `null`, which a `required` path and
the `_id` path both reject. -/
def castObjectId : JVal → Option ObjectId
  | .null => none
  | v => parseObjectId (jsToString v)

/-! ## Documents, state, responses -/

/-- A document of the `User` collection (`UserSchema`). -/
structure User where
  _id : ObjectId
  firstName : String
  lastName : String
  email : String
  password : String
  dob : Int
  gender : String
  username : String
  purpose : String
  deriving DecidableEq, Repr

/-- A document of the `Todo` collection (`TodoSchema`).  `completed` is `none` when the
stored value is `null`. -/
structure Todo where
  _id : ObjectId
  text : String
  completed : Option Bool
  owner : ObjectId
  deriving DecidableEq, Repr

/-- The state of the running server: the two collections and whether the route
`GET /` has been added to the Express router. -/
structure Server where
  users : List User
  todos : List Todo
  rootRoute : Bool
  deriving DecidableEq, Repr

/-- What a handler sends. -/
inductive Payload where
  | error (msg : String)
  | message (msg : String)
  | todo (t : Todo)
  | todos (ts : List Todo)
  | session (token : String) (userId : ObjectId) (username : String) (message : String)
  | text (s : String)
  deriving DecidableEq, Repr

/-- An HTTP response: status code and body. -/
structure Response where
  status : Nat
  body : Payload
  deriving DecidableEq, Repr

/-- The library calls that are not determined by `server.js`.
* `jwtVerify token now` is `jwt.verify(token, JWT_SECRET)` at time `now`: `none` when it
  throws, otherwise the `userId` member of the decoded payload (`none` when `undefined`);
* `jwtSign userId now` is `jwt.sign({ userId }, JWT_SECRET, { expiresIn: '1h' })`;
* `bcryptHash password rounds salt` is `bcrypt.hash(password, rounds)` with the salt drawn
  for this call;
* `bcryptCompare password hash` is `bcrypt.compare(password, hash)`;
* `castDate v` is the Mongoose cast to `Date` in milliseconds, `none` for a `CastError`
  or `null`;
* `findOneChoice matching` is the position, in the list of the documents that match a
  `findOne` filter, of the document MongoDB returns; `server.js` asks for no order, so
  when several documents match, any of them may come back. -/
structure Lib where
  jwtVerify : String → Nat → Option (Option JVal)
  jwtSign : String → Nat → String
  bcryptHash : String → Nat → Nat → String
  bcryptCompare : String → String → Bool
  castDate : JVal → Option Int
  findOneChoice : List User → Nat

/-- The keys of `req.body` that are paths of the `Todo` schema (`_id` is added to every
schema by Mongoose); a key that is absent is `none`. -/
structure Body where
  _id : Option JVal
  text : Option JVal
  completed : Option JVal
  owner : Option JVal
  deriving DecidableEq, Repr

/-- The body of `POST /api/register`. -/
structure RegisterBody where
  firstName : Option JVal
  lastName : Option JVal
  email : Option JVal
  password : Option JVal
  dob : Option JVal
  gender : Option JVal
  username : Option JVal
  purpose : Option JVal
  deriving DecidableEq, Repr

/-- The body of `POST /api/login`. -/
structure LoginBody where
  email : Option JVal
  password : Option JVal
  deriving DecidableEq, Repr

/-! ## Mongoose documents and queries -/

/-- A lower-case hexadecimal digit. -/
def hexChar (d : Nat) : Char :=
  if d < 10 then Char.ofNat (48 + d) else Char.ofNat (87 + d)

/-- The `k` least significant hexadecimal digits of `n`, most significant first. -/
def toHexDigits : Nat → Nat → List Char
  | 0, _ => []
  | k + 1, n => toHexDigits k (n / 16) ++ [hexChar (n % 16)]

/-- The method `toString()` of an `ObjectId`: 24 lower-case hexadecimal digits. -/
def oidToString (id : ObjectId) : String := ⟨toHexDigits 24 id⟩

/-- The validator of `required: true` on a String path: a string of positive length. -/
def requiredString : Option String → Option String
  | some s => if s = "" then none else some s
  | none => none

/-- A path declared `{ type: String, required: true, trim: true }`, set from a key of
the request body; `none` when validation fails. -/
def requiredTrim (v : Option JVal) : Option String :=
  requiredString (v.bind castTrim)

/-- Setting a path from an optional key: an absent key sets nothing (`some none`), a
present key is cast, and a failed cast invalidates the document (`none`). -/
def castPath {α : Type} (cast : JVal → Option α) : Option JVal → Option (Option α)
  | none => some none
  | some v => (cast v).map some

/-- The argument of `new Todo({ ...req.body, owner: req.user._id })`: the keys of the
body, with `owner` overwritten by the later entry of the object literal. -/
structure TodoInit where
  _id : Option JVal
  text : Option JVal
  completed : Option JVal
  owner : ObjectId
  deriving DecidableEq, Repr

/-- The object literal `{ ...req.body, owner }`. -/
def spreadOwner (body : Body) (owner : ObjectId) : TodoInit :=
  { _id := body._id, text := body.text, completed := body.completed, owner := owner }

/-- The document `new Todo(init)` as `save()` validates it: `_id` is the generated
`autoId` unless the body supplies one, `text` is required and trimmed, `completed`
defaults to `false` when the key is absent; `none` is a `ValidationError`.  A body whose
`_id` is `null` is rejected here, whereas the driver then generates an id of its own and
stores the task (same owner, text and `completed`) under it. -/
def newTodo (init : TodoInit) (autoId : ObjectId) : Option Todo :=
  match castPath castObjectId init._id, requiredTrim init.text,
        castPath castBoolean init.completed with
  | some id, some text, some completed =>
    some { _id := id.getD autoId, text := text, completed := completed.getD (some false),
           owner := init.owner }
  | _, _, _ => none

/-- Insertion into the `Todo` collection; `none` is the duplicate-key error of the
unique index on `_id`. -/
def insertTodo (todos : List Todo) (t : Todo) : Option (List Todo) :=
  if todos.any (fun x => x._id == t._id) then none else some (todos ++ [t])

/-- The filter `{ _id: id, owner: owner }` on the `Todo` collection. -/
def ownedBy (id owner : ObjectId) (t : Todo) : Bool :=
  t._id == id && t.owner == owner

/-- The paths that `Object.assign(todo, req.body)` sets, after casting. -/
structure Delta where
  _id : Option ObjectId
  text : Option String
  completed : Option (Option Bool)
  owner : Option ObjectId
  deriving DecidableEq, Repr

/-- The effect of `Object.assign(todo, req.body)` followed by the validation of `save()`:
every key of the body that names a schema path goes through the setter of that path;
`none` is a `ValidationError` (failed cast, or a required path set to `null` or to a
text that is empty after trimming). -/
def assignBody (body : Body) : Option Delta :=
  match castPath castObjectId body._id, castPath (fun v => requiredTrim (some v)) body.text,
        castPath castBoolean body.completed, castPath castObjectId body.owner with
  | some id, some text, some completed, some owner =>
    some { _id := id, text := text, completed := completed, owner := owner }
  | _, _, _, _ => none

/-- The document after the assignment. -/
def Delta.apply (d : Delta) (t : Todo) : Todo :=
  { _id := d._id.getD t._id, text := d.text.getD t.text,
    completed := d.completed.getD t.completed, owner := d.owner.getD t.owner }

/-- The write of `save()` on an existing document: `updateOne({ _id }, { $set: delta })`
with the `_id` the document has at that moment; the first stored document with that
`_id` receives the assigned paths.  `none` when no stored document has that `_id`
(`DocumentNotFoundError`). -/
def updateOne (d : Delta) (id : ObjectId) : List Todo → Option (List Todo)
  | [] => none
  | t :: ts =>
    if t._id == id then some (d.apply t :: ts)
    else (updateOne d id ts).map (fun r => t :: r)

/-- A filter `{ path: v }` on a trimmed String path of the `User` collection, matched
against the stored value.  The filter value goes through the setters of the path; an
absent key (`undefined`) or `null` matches no document, the path being required. -/
def matchesString (v : Option JVal) (stored : String) : Bool :=
  match v.bind castTrim with
  | none => false
  | some s => s == stored

/-- The query `User.findOne({ _id: v })`; a value that does not cast makes the query
throw, which every caller treats like no result. -/
def findUserById (users : List User) (v : Option JVal) : Option User :=
  match v.bind castObjectId with
  | none => none
  | some id => users.find? (fun u => u._id == id)

/-- The query `User.findOne({ email })`. -/
def findByEmail (users : List User) (email : Option JVal) : Option User :=
  users.find? (fun u => matchesString email u.email)

/-- The result of a `findOne` whose filter is matched by the documents `matching`: none
when nothing matches, otherwise the matching document at the position MongoDB chooses. -/
def pickOne (choice : List User → Nat) (matching : List User) : Option User :=
  matching[choice matching % matching.length]?

/-- The query `User.findOne({ $or: [{ email }, { username }] })`: any one of the users
whose email or username matches. -/
def findExisting (lib : Lib) (users : List User) (email username : Option JVal) :
    Option User :=
  pickOne lib.findOneChoice
    (users.filter (fun u => matchesString email u.email || matchesString username u.username))

/-- The values allowed by `enum` on `gender`. -/
def genders : List String := ["Male", "Female", "Non-binary", "Prefer not to say"]

/-- The document `new User({...})` as `save()` validates it, with the hashed password;
`none` is a `ValidationError`. -/
def newUser (lib : Lib) (body : RegisterBody) (hashed : String) (autoId : ObjectId) :
    Option User :=
  match requiredTrim body.firstName, requiredTrim body.lastName, requiredTrim body.email,
        requiredString (some hashed), body.dob.bind lib.castDate,
        requiredString (body.gender.bind castString), requiredTrim body.username,
        requiredTrim body.purpose with
  | some firstName, some lastName, some email, some password, some dob, some gender,
    some username, some purpose =>
    if gender ∈ genders then
      some { _id := autoId, firstName := firstName, lastName := lastName, email := email,
             password := password, dob := dob, gender := gender, username := username,
             purpose := purpose }
    else none
  | _, _, _, _, _, _, _, _ => none

/-- Insertion into the `User` collection; `none` is the duplicate-key error of the unique
indexes on `_id`, `email` and `username`. -/
def insertUser (users : List User) (u : User) : Option (List User) :=
  if users.any (fun x => x._id == u._id || x.email == u.email || x.username == u.username)
  then none else some (users ++ [u])

/-! ## The middleware and the handlers of `server.js` -/

/-- The reply of the `catch` branch of `authMiddleware`. -/
def unauthenticated : Response := ⟨401, .error "Please authenticate."⟩

/-- Outcome of `authMiddleware`: either `next()` is called with `req.user` and
`req.token` set, or the response is sent and the chain stops. -/
inductive Auth where
  | next (user : User) (token : String)
  | reject (res : Response)
  deriving DecidableEq, Repr

/-- The middleware `authMiddleware`.  `authorization` is `req.header('Authorization')`
(`none` when the header is absent, so that `.replace` throws). -/
def authMiddleware (lib : Lib) (st : Server) (authorization : Option String) (now : Nat) :
    Auth :=
  match authorization with
  | none => .reject unauthenticated
  | some header =>
    let token := jsReplace header "Bearer " ""
    match lib.jwtVerify token now with
    | none => .reject unauthenticated
    | some userId =>
      match findUserById st.users userId with
      | none => .reject unauthenticated
      | some user => .next user token

/-- A route declared `app.METHOD(path, authMiddleware, handler)`. -/
def protect (lib : Lib) (st : Server) (authorization : Option String) (now : Nat)
    (handler : User → Response × Server) : Response × Server :=
  match authMiddleware lib st authorization now with
  | .reject res => (res, st)
  | .next user _ => handler user

/-- Handler of `GET /api/tasks`. -/
def getTasks (st : Server) (user : User) : Response × Server :=
  (⟨200, .todos (st.todos.filter (fun t => t.owner == user._id))⟩, st)

/-- Handler of `POST /api/tasks`. -/
def postTask (st : Server) (user : User) (body : Body) (autoId : ObjectId) :
    Response × Server :=
  match newTodo (spreadOwner body user._id) autoId with
  | none => (⟨400, .error "Failed to create task."⟩, st)
  | some todo =>
    match insertTodo st.todos todo with
    | none => (⟨400, .error "Failed to create task."⟩, st)
    | some todos => (⟨201, .todo todo⟩, { st with todos := todos })

/-- Handler of `PUT /api/tasks/:id`; `id` is `req.params.id`. -/
def putTask (st : Server) (user : User) (id : String) (body : Body) : Response × Server :=
  match parseObjectId id with
  | none => (⟨400, .error "Failed to update task."⟩, st)
  | some oid =>
    match st.todos.find? (ownedBy oid user._id) with
    | none => (⟨404, .error "Task not found."⟩, st)
    | some todo =>
      match assignBody body with
      | none => (⟨400, .error "Failed to update task."⟩, st)
      | some d =>
        match updateOne d (d.apply todo)._id st.todos with
        | none => (⟨400, .error "Failed to update task."⟩, st)
        | some todos => (⟨200, .todo (d.apply todo)⟩, { st with todos := todos })

/-- Handler of `DELETE /api/tasks/:id`; `id` is `req.params.id`. -/
def deleteTask (st : Server) (user : User) (id : String) : Response × Server :=
  match parseObjectId id with
  | none => (⟨500, .error "Failed to delete task."⟩, st)
  | some oid =>
    match st.todos.find? (ownedBy oid user._id) with
    | none => (⟨404, .error "Task not found."⟩, st)
    | some todo => (⟨200, .todo todo⟩, { st with todos := st.todos.eraseP (ownedBy oid user._id) })

/-- Handler of `POST /api/register`.  Past the duplicate check the handler itself calls
`app.get('/', ...)`, which adds the root route to the router, and then a second
`app.post('/api/register', ...)`, which is never reached because this handler, declared
first, always answers. -/
def postRegister (lib : Lib) (st : Server) (body : RegisterBody) (autoId salt : Nat) :
    Response × Server :=
  match findExisting lib st.users body.email body.username with
  | some existingUser =>
    if body.email = some (.str existingUser.email) then
      (⟨409, .message "Email already in use."⟩, st)
    else
      (⟨409, .message "Username already taken."⟩, st)
  | none =>
    let st1 : Server := { st with rootRoute := true }
    match body.password with
    | some (.str password) =>
      match newUser lib body (lib.bcryptHash password 10 salt) autoId with
      | none => (⟨500, .message "Internal server error."⟩, st1)
      | some newUser =>
        match insertUser st1.users newUser with
        | none => (⟨500, .message "Internal server error."⟩, st1)
        | some users => (⟨201, .message "User registered successfully!"⟩, { st1 with users := users })
    | _ => (⟨500, .message "Internal server error."⟩, st1)

/-- Handler of `POST /api/login`. -/
def postLogin (lib : Lib) (st : Server) (body : LoginBody) (now : Nat) : Response × Server :=
  match findByEmail st.users body.email with
  | none => (⟨400, .message "Invalid credentials."⟩, st)
  | some user =>
    match body.password with
    | some (.str password) =>
      if lib.bcryptCompare password user.password then
        (⟨200, .session (lib.jwtSign (oidToString user._id) now) user._id user.username
            "Login successful."⟩, st)
      else
        (⟨400, .message "Invalid credentials."⟩, st)
    | _ => (⟨500, .message "Internal server error."⟩, st)

/-- The route `GET /`: answered by the handler added during registration when it has
been added, and by the router's default 404 otherwise. -/
def getRoot (st : Server) : Response × Server :=
  if st.rootRoute then (⟨200, .text "Your backend server is running and ready!"⟩, st)
  else (⟨404, .text "Cannot GET /"⟩, st)

/-- Route `GET /api/tasks`. -/
def routeGetTasks (lib : Lib) (st : Server) (authorization : Option String) (now : Nat) :
    Response × Server :=
  protect lib st authorization now (getTasks st)

/-- Route `POST /api/tasks`. -/
def routePostTask (lib : Lib) (st : Server) (authorization : Option String) (now : Nat)
    (body : Body) (autoId : ObjectId) : Response × Server :=
  protect lib st authorization now (fun user => postTask st user body autoId)

/-- Route `PUT /api/tasks/:id`. -/
def routePutTask (lib : Lib) (st : Server) (authorization : Option String) (now : Nat)
    (id : String) (body : Body) : Response × Server :=
  protect lib st authorization now (fun user => putTask st user id body)

/-- Route `DELETE /api/tasks/:id`. -/
def routeDeleteTask (lib : Lib) (st : Server) (authorization : Option String) (now : Nat)
    (id : String) : Response × Server :=
  protect lib st authorization now (fun user => deleteTask st user id)

/-! ## Invariants of the collections and reachable states -/

/-- The unique index on `_id` of the `Todo` collection. -/
def uniqueTodoIds (st : Server) : Prop := (st.todos.map Todo._id).Nodup

instance (st : Server) : Decidable (uniqueTodoIds st) :=
  inferInstanceAs (Decidable (st.todos.map Todo._id).Nodup)

/-- Stored values of the paths `email` and `username` are trimmed (`trim: true`). -/
def trimmedUsers (st : Server) : Prop :=
  ∀ u ∈ st.users, jsTrim u.email = u.email ∧ jsTrim u.username = u.username

instance (st : Server) : Decidable (trimmedUsers st) :=
  inferInstanceAs (Decidable (∀ u ∈ st.users, jsTrim u.email = u.email ∧ jsTrim u.username = u.username))

/-- The server right after start: empty collections, no root route yet. -/
def Server.init : Server := ⟨[], [], false⟩

/-- States the server can be in after any sequence of requests. -/
inductive Reachable (lib : Lib) : Server → Prop where
  | init : Reachable lib Server.init
  | register {st : Server} (body : RegisterBody) (autoId salt : Nat) :
      Reachable lib st → Reachable lib (postRegister lib st body autoId salt).2
  | login {st : Server} (body : LoginBody) (now : Nat) :
      Reachable lib st → Reachable lib (postLogin lib st body now).2
  | root {st : Server} : Reachable lib st → Reachable lib (getRoot st).2
  | list {st : Server} (authorization : Option String) (now : Nat) :
      Reachable lib st → Reachable lib (routeGetTasks lib st authorization now).2
  | create {st : Server} (authorization : Option String) (now : Nat) (body : Body)
      (autoId : ObjectId) :
      Reachable lib st → Reachable lib (routePostTask lib st authorization now body autoId).2
  | update {st : Server} (authorization : Option String) (now : Nat) (id : String)
      (body : Body) :
      Reachable lib st → Reachable lib (routePutTask lib st authorization now id body).2
  | delete {st : Server} (authorization : Option String) (now : Nat) (id : String) :
      Reachable lib st → Reachable lib (routeDeleteTask lib st authorization now id).2

/-! ## A concrete instance for evaluating the handlers -/

/-- A small instance of `Lib`: a token is the user id it carries, a hash is the password
behind a fixed prefix, a date is a number of milliseconds, `findOne` returns the first
matching document. -/
def demoLib : Lib where
  jwtVerify := fun token _ => if token = "" then none else some (some (.str token))
  jwtSign := fun userId _ => userId
  bcryptHash := fun password _ _ => "$2b$10$" ++ password
  bcryptCompare := fun password hash => hash == "$2b$10$" ++ password
  castDate := fun v => match v with
    | .num n => some n
    | _ => none
  findOneChoice := fun _ => 0

/-- A registered user. -/
def alice : User :=
  ⟨1, "Alice", "Liddell", "alice@example.com", "$2b$10$pw1", 0, "Female", "alice", "Work"⟩

/-- Another registered user. -/
def bob : User :=
  ⟨2, "Bob", "Builder", "bob@example.com", "$2b$10$pw2", 0, "Male", "bob", "Home"⟩

/-- The `Authorization` header carrying the token of `alice`. -/
def aliceAuth : Option String := some "Bearer 000000000000000000000001"

/-- A state with two users, each owning one task. -/
def demoServer : Server :=
  ⟨[alice, bob], [⟨16, "buy milk", some false, 1⟩, ⟨17, "walk dog", some false, 2⟩], true⟩

/-- A state with two users and no task. -/
def demoUsers : Server := ⟨[alice, bob], [], true⟩

/-! ## The registration form of the frontend (`my-todo/src/App.jsx`) -/

/-- The state of the component `AuthScreen`: one string per `useState` hook. -/
structure AuthScreen where
  email : String
  password : String
  firstName : String
  lastName : String
  dob : String
  gender : String
  username : String
  purpose : String
  customPurpose : String
  deriving DecidableEq, Repr

/-- The constant `isRegisterFormValid` of `AuthScreen`; the Register button is disabled
exactly when it is `false`. -/
def isRegisterFormValid (f : AuthScreen) : Bool :=
  jsTrim f.email != "" && jsTrim f.password != "" && jsTrim f.firstName != "" &&
  jsTrim f.lastName != "" && jsTrim f.dob != "" && jsTrim f.gender != "" &&
  jsTrim f.username != "" && (jsTrim f.purpose != "" || jsTrim f.customPurpose != "")

/-- The constant `isLoginFormValid` of `AuthScreen`. -/
def isLoginFormValid (f : AuthScreen) : Bool :=
  jsTrim f.email != "" && jsTrim f.password != ""

/-- The local `finalPurpose` of `handleSubmit`. -/
def finalPurpose (f : AuthScreen) : String :=
  if f.purpose = "Other" then f.customPurpose else f.purpose

/-- What `handleSubmit` hands on: `onRegister(userData)` or `onLogin(email, password)`. -/
inductive Submission where
  | onRegister (userData : RegisterBody)
  | onLogin (email password : String)
  deriving DecidableEq, Repr

/-- The function `handleSubmit` of `AuthScreen`; `userData` is shown as the JSON body that
`handleRegister` posts. -/
def handleSubmit (isRegistering : Bool) (f : AuthScreen) : Submission :=
  if isRegistering then
    .onRegister
      { email := some (.str f.email), password := some (.str f.password),
        firstName := some (.str f.firstName), lastName := some (.str f.lastName),
        dob := some (.str f.dob), gender := some (.str f.gender),
        username := some (.str f.username), purpose := some (.str (finalPurpose f)) }
  else
    .onLogin f.email f.password

/-! ## The end-to-end scenario -/

/-- The registration of `alice` with password `pw1`; `dob` is the submitted date. -/
def aliceForm (dob : JVal) : RegisterBody :=
  ⟨some (.str "Alice"), some (.str "Liddell"), some (.str "alice@example.com"),
    some (.str "pw1"), some dob, some (.str "Female"), some (.str "alice"),
    some (.str "Work")⟩

/-- The member `token` of a login response. -/
def tokenOf (res : Response) : String :=
  match res.body with
  | .session token _ _ _ => token
  | _ => ""

/-- The header the frontend sends with a token: `Bearer ${token}`. -/
def bearer (token : String) : Option String := some ("Bearer " ++ token)

/-- The member `_id` of a returned task, as it appears in the JSON response. -/
def taskIdOf (res : Response) : String :=
  match res.body with
  | .todo t => oidToString t._id
  | _ => ""

/-- The responses of the eight steps of the scenario. -/
structure ScenarioRun where
  register : Response
  login : Response
  create : Response
  list1 : Response
  update : Response
  list2 : Response
  delete : Response
  list3 : Response
  deriving DecidableEq, Repr

/-- The scenario register, login, create, list, update, list, delete, list, run from
the initial state.  The client takes the token from the login response and the task id
from the create response.  `userId` and `taskId` are the ids generated for the two new
documents and `clock k` is the time of step `k`. -/
def scenario (lib : Lib) (dob : JVal) (userId taskId salt : Nat) (clock : Nat → Nat) :
    ScenarioRun :=
  let r1 := postRegister lib Server.init (aliceForm dob) userId salt
  let r2 := postLogin lib r1.2 ⟨some (.str "alice@example.com"), some (.str "pw1")⟩ (clock 1)
  let auth := bearer (tokenOf r2.1)
  let r3 := routePostTask lib r2.2 auth (clock 2) ⟨none, some (.str "buy milk"), none, none⟩ taskId
  let r4 := routeGetTasks lib r3.2 auth (clock 3)
  let r5 := routePutTask lib r4.2 auth (clock 4) (taskIdOf r3.1)
    ⟨none, none, some (.bool true), none⟩
  let r6 := routeGetTasks lib r5.2 auth (clock 5)
  let r7 := routeDeleteTask lib r6.2 auth (clock 6) (taskIdOf r3.1)
  let r8 := routeGetTasks lib r7.2 auth (clock 7)
  ⟨r1.1, r2.1, r3.1, r4.1, r5.1, r6.1, r7.1, r8.1⟩

/-! ## Auxiliary lemmas -/

theorem pickOne_eq_none {choice : List User → Nat} {matching : List User} :
    pickOne choice matching = none ↔ matching = [] := by
  unfold pickOne
  constructor
  · intro h
    cases matching with
    | nil => rfl
    | cons a l =>
      rw [List.getElem?_eq_none_iff] at h
      have hlt : choice (a :: l) % (a :: l).length < (a :: l).length :=
        Nat.mod_lt _ (by simp)
      omega
  · intro h
    rw [h]
    rfl

theorem pickOne_mem {choice : List User → Nat} {matching : List User} {u : User}
    (h : pickOne choice matching = some u) : u ∈ matching := by
  unfold pickOne at h
  exact List.getElem?_mem h

theorem pickOne_singleton (choice : List User → Nat) (u : User) :
    pickOne choice [u] = some u := by
  simp [pickOne, Nat.mod_one]

theorem mem_users_of_findUserById {users : List User} {v : Option JVal} {u : User}
    (h : findUserById users v = some u) : u ∈ users ∧ v.bind castObjectId = some u._id := by
  unfold findUserById at h
  split at h
  · exact absurd h (by simp)
  · next id hid =>
    have hp := List.find?_some h
    have hm := List.mem_of_find?_eq_some h
    simp only [beq_iff_eq] at hp
    exact ⟨hm, by rw [hid, hp]⟩

theorem protect_next {lib : Lib} {st : Server} {authorization : Option String} {now : Nat}
    {user : User} {token : String}
    (h : authMiddleware lib st authorization now = .next user token)
    (handler : User → Response × Server) :
    protect lib st authorization now handler = handler user := by
  simp [protect, h]

theorem protect_reject {lib : Lib} {st : Server} {authorization : Option String} {now : Nat}
    {res : Response} (h : authMiddleware lib st authorization now = .reject res)
    (handler : User → Response × Server) :
    protect lib st authorization now handler = (res, st) := by
  simp [protect, h]

theorem todo_eq_of_id_eq {st : Server} (hu : uniqueTodoIds st) {x y : Todo}
    (hx : x ∈ st.todos) (hy : y ∈ st.todos) (h : x._id = y._id) : x = y :=
  List.inj_on_of_nodup_map hu hx hy h

theorem putTask_not_found {st : Server} {user : User} {id : String} {oid : ObjectId}
    (body : Body) (hid : parseObjectId id = some oid)
    (hnone : ∀ x ∈ st.todos, ¬ (x._id = oid ∧ x.owner = user._id)) :
    putTask st user id body = (⟨404, .error "Task not found."⟩, st) := by
  have hf : st.todos.find? (ownedBy oid user._id) = none := by
    rw [List.find?_eq_none]
    intro x hx hp
    simp only [ownedBy, Bool.and_eq_true, beq_iff_eq] at hp
    exact hnone x hx hp
  simp [putTask, hid, hf]

/-! ## Claims -/

/-- C1: an update addressed to a task owned by another user is answered 404
`Task not found.` with the store unchanged, whatever the patch; the same request in a
store where the id matches no task at all gets the identical response. -/
theorem C1_update_foreign_task_not_found (lib : Lib) (st st' : Server)
    (authorization : Option String) (now : Nat) (A : User) (token token' : String)
    (id : String) (patch : Body) (t : Todo)
    (hunique : uniqueTodoIds st)
    (hauth : authMiddleware lib st authorization now = .next A token)
    (hauth' : authMiddleware lib st' authorization now = .next A token')
    (ht : t ∈ st.todos) (hid : parseObjectId id = some t._id) (howner : t.owner ≠ A._id)
    (habsent : ∀ x ∈ st'.todos, parseObjectId id ≠ some x._id) :
    routePutTask lib st authorization now id patch
        = (⟨404, .error "Task not found."⟩, st)
      ∧ (routePutTask lib st' authorization now id patch).1
        = (routePutTask lib st authorization now id patch).1
      ∧ (routePutTask lib st' authorization now id patch).2 = st' := by
  have h1 : putTask st A id patch = (⟨404, .error "Task not found."⟩, st) := by
    apply putTask_not_found patch hid
    rintro x hx ⟨hxid, hxo⟩
    have := todo_eq_of_id_eq hunique hx ht hxid
    subst this
    exact howner hxo
  have h2 : putTask st' A id patch = (⟨404, .error "Task not found."⟩, st') := by
    apply putTask_not_found patch hid
    rintro x hx ⟨hxid, _⟩
    exact habsent x hx (by rw [hid, hxid])
  simp only [routePutTask, protect_next hauth, protect_next hauth', h1, h2, and_self]

theorem C1_update_foreign_task_not_found_witness :
    routePutTask demoLib demoServer aliceAuth 0 "000000000000000000000011"
        ⟨none, some (.str "mine now"), some (.bool true), none⟩
        = (⟨404, .error "Task not found."⟩, demoServer)
      ∧ (routePutTask demoLib demoUsers aliceAuth 0 "000000000000000000000011"
          ⟨none, some (.str "mine now"), some (.bool true), none⟩).1
        = (routePutTask demoLib demoServer aliceAuth 0 "000000000000000000000011"
          ⟨none, some (.str "mine now"), some (.bool true), none⟩).1
      ∧ (routePutTask demoLib demoUsers aliceAuth 0 "000000000000000000000011"
          ⟨none, some (.str "mine now"), some (.bool true), none⟩).2 = demoUsers :=
  C1_update_foreign_task_not_found demoLib demoServer demoUsers aliceAuth 0 alice
    "000000000000000000000001" "000000000000000000000001" "000000000000000000000011"
    ⟨none, some (.str "mine now"), some (.bool true), none⟩ ⟨17, "walk dog", some false, 2⟩
    (by decide) (by decide) (by decide) (by decide) (by decide) (by decide) (by decide)

theorem deleteTask_found {st : Server} {user : User} {id : String} {oid : ObjectId}
    (hid : parseObjectId id = some oid)
    (hsome : ∃ x ∈ st.todos, x._id = oid ∧ x.owner = user._id) :
    ∃ t before after, t._id = oid ∧ t.owner = user._id ∧ st.todos = before ++ t :: after ∧
      (∀ x ∈ before, ¬ (x._id = oid ∧ x.owner = user._id)) ∧
      deleteTask st user id = (⟨200, .todo t⟩, { st with todos := before ++ after }) := by
  obtain ⟨x, hx, hxp⟩ := hsome
  cases hf : st.todos.find? (ownedBy oid user._id) with
  | none =>
    rw [List.find?_eq_none] at hf
    exact absurd (by simp [ownedBy, hxp]) (hf x hx)
  | some t =>
    obtain ⟨hp, before, after, hsplit, hbefore⟩ := List.find?_eq_some.mp hf
    simp only [ownedBy, Bool.and_eq_true, beq_iff_eq] at hp
    have hb : ∀ y ∈ before, ¬ ownedBy oid user._id y = true := by
      intro y hy
      simpa using hbefore y hy
    refine ⟨t, before, after, hp.1, hp.2, hsplit, ?_, ?_⟩
    · intro y hy hc
      exact hb y hy (by simp [ownedBy, hc])
    · have he : st.todos.eraseP (ownedBy oid user._id) = before ++ after := by
        rw [hsplit, List.eraseP_append_right _ hb,
          List.eraseP_cons_of_pos (by simp [ownedBy, hp])]
      simp [deleteTask, hid, hf, he]

/-- C2 (amended): for an id that is a well-formed ObjectId, DELETE answers 404 with the
store unchanged when no task with that id is owned by the caller, and otherwise removes
exactly that task, returns it and keeps every other task, in order; an id that is not a
well-formed ObjectId is answered 500 `Failed to delete task.` with the store unchanged. -/
theorem C2_delete_scoped_to_owner (lib : Lib) (st : Server) (authorization : Option String)
    (now : Nat) (A : User) (token : String) (id : String)
    (hauth : authMiddleware lib st authorization now = .next A token) :
    (∀ oid, parseObjectId id = some oid →
        (∀ x ∈ st.todos, ¬ (x._id = oid ∧ x.owner = A._id)) →
        routeDeleteTask lib st authorization now id = (⟨404, .error "Task not found."⟩, st))
      ∧ (∀ oid, parseObjectId id = some oid →
        (∃ x ∈ st.todos, x._id = oid ∧ x.owner = A._id) →
        ∃ t before after, t._id = oid ∧ t.owner = A._id ∧
          st.todos = before ++ t :: after ∧
          (∀ x ∈ before, ¬ (x._id = oid ∧ x.owner = A._id)) ∧
          routeDeleteTask lib st authorization now id
            = (⟨200, .todo t⟩, { st with todos := before ++ after }))
      ∧ (parseObjectId id = none →
        routeDeleteTask lib st authorization now id
          = (⟨500, .error "Failed to delete task."⟩, st)) := by
  simp only [routeDeleteTask, protect_next hauth]
  refine ⟨?_, ?_, ?_⟩
  · intro oid hid hnone
    have hf : st.todos.find? (ownedBy oid A._id) = none := by
      rw [List.find?_eq_none]
      intro x hx hp
      simp only [ownedBy, Bool.and_eq_true, beq_iff_eq] at hp
      exact hnone x hx hp
    simp [deleteTask, hid, hf]
  · intro oid hid hsome
    exact deleteTask_found hid hsome
  · intro hid
    simp [deleteTask, hid]

theorem C2_delete_scoped_to_owner_witness :
    routeDeleteTask demoLib demoServer aliceAuth 0 "000000000000000000000011"
        = (⟨404, .error "Task not found."⟩, demoServer)
      ∧ routeDeleteTask demoLib demoServer aliceAuth 0 "000000000000000000000010"
        = (⟨200, .todo ⟨16, "buy milk", some false, 1⟩⟩,
            { demoServer with todos := [⟨17, "walk dog", some false, 2⟩] }) := by
  have h := C2_delete_scoped_to_owner demoLib demoServer aliceAuth 0 alice
    "000000000000000000000001" "000000000000000000000011" (by decide)
  exact ⟨h.1 17 (by decide) (by decide), by decide⟩

/-- C2 (as stated) fails: `abc` is the id of no task, yet DELETE answers 500, not 404. -/
theorem C2_malformed_id_counterexample :
    authMiddleware demoLib demoServer aliceAuth 0 = .next alice "000000000000000000000001"
      ∧ (∀ t ∈ demoServer.todos, parseObjectId "abc" ≠ some t._id ∧ oidToString t._id ≠ "abc")
      ∧ routeDeleteTask demoLib demoServer aliceAuth 0 "abc"
        = (⟨500, .error "Failed to delete task."⟩, demoServer)
      ∧ (routeDeleteTask demoLib demoServer aliceAuth 0 "abc").1.status ≠ 404 := by
  decide

/-- C3 (defect in the code): `alice` creates a task, which is stored with owner `alice`;
her update with the body `{ "owner": "<id of bob>" }` is answered 200 and the stored task
now has owner `bob`. -/
theorem C3_update_reassigns_owner :
    routePostTask demoLib demoUsers aliceAuth 0 ⟨none, some (.str "buy milk"), none, none⟩ 16
        = (⟨201, .todo ⟨16, "buy milk", some false, alice._id⟩⟩,
            { demoUsers with todos := [⟨16, "buy milk", some false, alice._id⟩] })
      ∧ routePutTask demoLib { demoUsers with todos := [⟨16, "buy milk", some false, alice._id⟩] }
          aliceAuth 0 "000000000000000000000010"
          ⟨none, none, none, some (.str "000000000000000000000002")⟩
        = (⟨200, .todo ⟨16, "buy milk", some false, bob._id⟩⟩,
            { demoUsers with todos := [⟨16, "buy milk", some false, bob._id⟩] })
      ∧ alice._id ≠ bob._id := by
  decide

theorem postTask_cases (st : Server) (user : User) (body : Body) (autoId : ObjectId) :
    postTask st user body autoId = (⟨400, .error "Failed to create task."⟩, st)
      ∨ ∃ t, newTodo (spreadOwner body user._id) autoId = some t ∧
          (∀ x ∈ st.todos, x._id ≠ t._id) ∧
          postTask st user body autoId
            = (⟨201, .todo t⟩, { st with todos := st.todos ++ [t] }) := by
  unfold postTask
  cases hn : newTodo (spreadOwner body user._id) autoId with
  | none => exact Or.inl rfl
  | some t =>
    by_cases hany : st.todos.any (fun x => x._id == t._id) = true
    · left
      simp [insertTodo, hany]
    · right
      refine ⟨t, rfl, ?_, by simp [insertTodo, hany]⟩
      intro x hx hxe
      exact hany (List.any_eq_true.mpr ⟨x, hx, by simp [hxe]⟩)

theorem newTodo_eq_some {init : TodoInit} {autoId : ObjectId} {t : Todo}
    (h : newTodo init autoId = some t) :
    ∃ id text completed, castPath castObjectId init._id = some id ∧
      requiredTrim init.text = some text ∧
      castPath castBoolean init.completed = some completed ∧
      t = ⟨id.getD autoId, text, completed.getD (some false), init.owner⟩ := by
  unfold newTodo at h
  split at h
  · next id text completed h1 h2 h3 =>
    simp only [Option.some.injEq] at h
    exact ⟨id, text, completed, h1, h2, h3, h.symm⟩
  · exact absurd h (by simp)

theorem newTodo_of_casts {init : TodoInit} {autoId : ObjectId} {id : Option ObjectId}
    {text : String} {completed : Option (Option Bool)}
    (h1 : castPath castObjectId init._id = some id)
    (h2 : requiredTrim init.text = some text)
    (h3 : castPath castBoolean init.completed = some completed) :
    newTodo init autoId
      = some ⟨id.getD autoId, text, completed.getD (some false), init.owner⟩ := by
  unfold newTodo
  rw [h1, h2, h3]

theorem newTodo_owner {init : TodoInit} {autoId : ObjectId} {t : Todo}
    (h : newTodo init autoId = some t) : t.owner = init.owner := by
  obtain ⟨id, text, completed, _, _, _, ht⟩ := newTodo_eq_some h
  rw [ht]

/-- C4: a task persisted by POST /api/tasks is owned by the authenticated caller, and
the `owner` key of the request body has no influence on the response or on the store. -/
theorem C4_create_owner_is_caller (lib : Lib) (st : Server) (authorization : Option String)
    (now : Nat) (A : User) (token : String) (body : Body) (autoId : ObjectId)
    (hauth : authMiddleware lib st authorization now = .next A token) :
    (routePostTask lib st authorization now body autoId
          = (⟨400, .error "Failed to create task."⟩, st)
        ∨ ∃ t, t.owner = A._id ∧
            routePostTask lib st authorization now body autoId
              = (⟨201, .todo t⟩, { st with todos := st.todos ++ [t] }))
      ∧ ∀ supplied : Option JVal,
          routePostTask lib st authorization now { body with owner := supplied } autoId
            = routePostTask lib st authorization now body autoId := by
  simp only [routePostTask, protect_next hauth]
  refine ⟨?_, fun supplied => rfl⟩
  rcases postTask_cases st A body autoId with h | ⟨t, hn, _, h⟩
  · exact Or.inl h
  · exact Or.inr ⟨t, newTodo_owner hn, h⟩

theorem C4_create_owner_is_caller_witness :
    (routePostTask demoLib demoUsers aliceAuth 0
          ⟨none, some (.str "buy milk"), none, some (.str "000000000000000000000002")⟩ 16
          = (⟨400, .error "Failed to create task."⟩, demoUsers)
        ∨ ∃ t, t.owner = alice._id ∧
            routePostTask demoLib demoUsers aliceAuth 0
              ⟨none, some (.str "buy milk"), none, some (.str "000000000000000000000002")⟩ 16
              = (⟨201, .todo t⟩, { demoUsers with todos := demoUsers.todos ++ [t] }))
      ∧ routePostTask demoLib demoUsers aliceAuth 0
          ⟨none, some (.str "buy milk"), none, some (.str "000000000000000000000002")⟩ 16
        = (⟨201, .todo ⟨16, "buy milk", some false, 1⟩⟩,
            { demoUsers with todos := [⟨16, "buy milk", some false, 1⟩] }) :=
  ⟨(C4_create_owner_is_caller demoLib demoUsers aliceAuth 0 alice "000000000000000000000001"
      ⟨none, some (.str "buy milk"), none, some (.str "000000000000000000000002")⟩ 16
      (by decide)).1, by decide⟩

/-- C5 (as stated) fails: the body `{ "text": "buy milk", "completed": true }` has a text
that is non-empty after trimming, and the task persisted and returned has
`completed = true`. -/
theorem C5_completed_from_body_counterexample :
    requiredTrim (some (.str "buy milk")) = some "buy milk"
      ∧ routePostTask demoLib demoUsers aliceAuth 0
          ⟨none, some (.str "buy milk"), some (.bool true), none⟩ 16
        = (⟨201, .todo ⟨16, "buy milk", some true, 1⟩⟩,
            { demoUsers with todos := [⟨16, "buy milk", some true, 1⟩] }) := by
  decide

/-- C5 (amended): when the body's text is non-empty after trimming and the body carries
no `completed` key, or one whose value casts to `false`, every task that POST /api/tasks
persists and returns has `completed = false`; with no `_id` key in the body and a fresh
generated id the task is persisted. -/
theorem C5_create_completed_default (lib : Lib) (st : Server)
    (authorization : Option String) (now : Nat) (A : User) (token : String) (body : Body)
    (autoId : ObjectId) (text : String)
    (hauth : authMiddleware lib st authorization now = .next A token)
    (htext : requiredTrim body.text = some text)
    (hcompleted : body.completed = none
      ∨ ∃ v, body.completed = some v ∧ castBoolean v = some (some false)) :
    (routePostTask lib st authorization now body autoId
          = (⟨400, .error "Failed to create task."⟩, st)
        ∨ ∃ t, t.completed = some false ∧ t.text = text ∧
            routePostTask lib st authorization now body autoId
              = (⟨201, .todo t⟩, { st with todos := st.todos ++ [t] }))
      ∧ (body._id = none → (∀ x ∈ st.todos, x._id ≠ autoId) →
          routePostTask lib st authorization now body autoId
            = (⟨201, .todo ⟨autoId, text, some false, A._id⟩⟩,
                { st with todos := st.todos ++ [⟨autoId, text, some false, A._id⟩] })) := by
  have hc : castPath castBoolean body.completed = some none
      ∨ castPath castBoolean body.completed = some (some (some false)) := by
    rcases hcompleted with h | ⟨v, h, hv⟩
    · exact Or.inl (by simp [h, castPath])
    · exact Or.inr (by simp [h, castPath, hv])
  simp only [routePostTask, protect_next hauth]
  constructor
  · rcases postTask_cases st A body autoId with h | ⟨t, hn, _, h⟩
    · exact Or.inl h
    · obtain ⟨id, text', completed, _, h2, h3, ht⟩ := newTodo_eq_some hn
      simp only [spreadOwner] at h2 h3
      rw [htext] at h2
      simp only [Option.some.injEq] at h2
      refine Or.inr ⟨t, ?_, ?_, h⟩
      · rcases hc with hc | hc <;> rw [hc] at h3 <;>
          simp only [Option.some.injEq] at h3 <;> rw [ht, ← h3] <;> rfl
      · rw [ht, h2]
  · intro hid hfresh
    have h1 : castPath castObjectId (spreadOwner body A._id)._id = some none := by
      simp [spreadOwner, hid, castPath]
    have hn : newTodo (spreadOwner body A._id) autoId
        = some ⟨autoId, text, some false, A._id⟩ := by
      rcases hc with hc | hc
      · exact newTodo_of_casts h1 htext hc
      · exact newTodo_of_casts h1 htext hc
    have hany : ¬ st.todos.any (fun x => x._id == autoId) = true := by
      intro h
      obtain ⟨x, hx, hxe⟩ := List.any_eq_true.mp h
      exact hfresh x hx (by simpa using hxe)
    simp [postTask, hn, insertTodo, hany]

theorem C5_create_completed_default_witness :
    routePostTask demoLib demoServer aliceAuth 0
        ⟨none, some (.str "  feed cat "), some (.str "no"), none⟩ 18
      = (⟨201, .todo ⟨18, "feed cat", some false, alice._id⟩⟩,
          { demoServer with
            todos := demoServer.todos ++ [⟨18, "feed cat", some false, alice._id⟩] }) :=
  (C5_create_completed_default demoLib demoServer aliceAuth 0 alice
    "000000000000000000000001" ⟨none, some (.str "  feed cat "), some (.str "no"), none⟩ 18
    "feed cat" (by decide) (by decide) (Or.inr ⟨.str "no", rfl, by decide⟩)).2 rfl (by decide)

theorem trimChars_of_all_whitespace {l : List Char}
    (h : ∀ c ∈ l, isJsWhitespace c = true) : trimChars l = [] := by
  have h1 : l.dropWhile isJsWhitespace = [] := List.dropWhile_eq_nil_iff.mpr h
  simp [trimChars, h1]

theorem requiredTrim_blank {v : Option JVal}
    (h : v = none ∨ v = some .null
      ∨ ∃ s, v = some (.str s) ∧ ∀ c ∈ s.data, isJsWhitespace c = true) :
    requiredTrim v = none := by
  rcases h with h | h | ⟨s, h, hs⟩
  · subst h; rfl
  · subst h; rfl
  · subst h
    have : jsTrim s = "" := by
      unfold jsTrim
      rw [trimChars_of_all_whitespace hs]
    simp [requiredTrim, castTrim, castString, jsToString, this, requiredString]

/-- C6: POST /api/tasks with a text that is missing, `null`, empty or made of white
space only is answered 400 `Failed to create task.` and persists nothing: the whole
state, and the list the caller gets from GET /api/tasks, are as before. -/
theorem C6_create_blank_text_rejected (lib : Lib) (st : Server)
    (authorization : Option String) (now : Nat) (A : User) (token : String) (body : Body)
    (autoId : ObjectId)
    (hauth : authMiddleware lib st authorization now = .next A token)
    (htext : body.text = none ∨ body.text = some .null
      ∨ ∃ s, body.text = some (.str s) ∧ ∀ c ∈ s.data, isJsWhitespace c = true) :
    routePostTask lib st authorization now body autoId
        = (⟨400, .error "Failed to create task."⟩, st)
      ∧ routeGetTasks lib (routePostTask lib st authorization now body autoId).2
          authorization now
        = routeGetTasks lib st authorization now := by
  have hn : newTodo (spreadOwner body A._id) autoId = none := by
    cases h : newTodo (spreadOwner body A._id) autoId with
    | none => rfl
    | some t =>
      obtain ⟨_, text, _, _, h2, _, _⟩ := newTodo_eq_some h
      simp only [spreadOwner] at h2
      rw [requiredTrim_blank htext] at h2
      exact absurd h2 (by simp)
  have h1 : routePostTask lib st authorization now body autoId
      = (⟨400, .error "Failed to create task."⟩, st) := by
    simp [routePostTask, protect_next hauth, postTask, hn]
  exact ⟨h1, by rw [h1]⟩

theorem C6_create_blank_text_rejected_witness :
    routePostTask demoLib demoServer aliceAuth 0 ⟨none, some (.str " \t\n "), none, none⟩ 18
        = (⟨400, .error "Failed to create task."⟩, demoServer)
      ∧ routePostTask demoLib demoServer aliceAuth 0 ⟨none, none, some (.bool true), none⟩ 18
        = (⟨400, .error "Failed to create task."⟩, demoServer) :=
  ⟨(C6_create_blank_text_rejected demoLib demoServer aliceAuth 0 alice
      "000000000000000000000001" ⟨none, some (.str " \t\n "), none, none⟩ 18 (by decide)
      (Or.inr (Or.inr ⟨" \t\n ", rfl, by decide⟩))).1,
   (C6_create_blank_text_rejected demoLib demoServer aliceAuth 0 alice
      "000000000000000000000001" ⟨none, none, some (.bool true), none⟩ 18 (by decide)
      (Or.inl rfl)).1⟩

/-- C7: GET /api/tasks answers 200 with exactly the stored tasks whose owner is the
caller, in store order, and leaves the state unchanged. -/
theorem C7_list_returns_own_tasks (lib : Lib) (st : Server) (authorization : Option String)
    (now : Nat) (A : User) (token : String)
    (hauth : authMiddleware lib st authorization now = .next A token) :
    ∃ tasks, routeGetTasks lib st authorization now = (⟨200, .todos tasks⟩, st)
      ∧ (∀ t ∈ tasks, t.owner = A._id)
      ∧ (∀ t ∈ st.todos, t.owner = A._id → t ∈ tasks)
      ∧ (∀ t, t ∈ tasks ↔ t ∈ st.todos ∧ t.owner = A._id)
      ∧ (∀ t, tasks.count t = if t.owner = A._id then st.todos.count t else 0)
      ∧ tasks.Sublist st.todos := by
  refine ⟨st.todos.filter (fun t => t.owner == A._id), ?_, ?_, ?_, ?_, ?_, ?_⟩
  · simp [routeGetTasks, protect_next hauth, getTasks]
  · intro t ht
    simpa using (List.mem_filter.mp ht).2
  · intro t ht ho
    exact List.mem_filter.mpr ⟨ht, by simpa using ho⟩
  · intro t
    simp [List.mem_filter]
  · intro t
    by_cases h : t.owner = A._id
    · rw [if_pos h, List.count_filter (by simpa using h)]
    · rw [if_neg h]
      exact List.count_eq_zero_of_not_mem
        (fun hm => h (by simpa using (List.mem_filter.mp hm).2))
  · exact List.filter_sublist _

theorem C7_list_returns_own_tasks_witness :
    (∃ tasks, routeGetTasks demoLib demoServer aliceAuth 0
        = (⟨200, .todos tasks⟩, demoServer)
      ∧ (∀ t ∈ tasks, t.owner = alice._id)
      ∧ (∀ t ∈ demoServer.todos, t.owner = alice._id → t ∈ tasks)
      ∧ (∀ t, t ∈ tasks ↔ t ∈ demoServer.todos ∧ t.owner = alice._id)
      ∧ (∀ t, tasks.count t = if t.owner = alice._id then demoServer.todos.count t else 0)
      ∧ tasks.Sublist demoServer.todos)
    ∧ routeGetTasks demoLib demoServer aliceAuth 0
        = (⟨200, .todos [⟨16, "buy milk", some false, 1⟩]⟩, demoServer) :=
  ⟨C7_list_returns_own_tasks demoLib demoServer aliceAuth 0 alice "000000000000000000000001"
    (by decide), by decide⟩

theorem findUserById_none_of_no_user {users : List User} {v : Option JVal}
    (h : ∀ u ∈ users, v.bind castObjectId ≠ some u._id) : findUserById users v = none := by
  cases hf : findUserById users v with
  | none => rfl
  | some u =>
    obtain ⟨hm, hid⟩ := mem_users_of_findUserById hf
    exact absurd hid (h u hm)

theorem authMiddleware_cases (lib : Lib) (st : Server) (authorization : Option String)
    (now : Nat) :
    authMiddleware lib st authorization now = .reject unauthenticated
      ∨ ∃ header userId user, authorization = some header ∧
          lib.jwtVerify (jsReplace header "Bearer " "") now = some userId ∧
          findUserById st.users userId = some user ∧
          authMiddleware lib st authorization now
            = .next user (jsReplace header "Bearer " "") := by
  unfold authMiddleware
  cases authorization with
  | none => exact Or.inl rfl
  | some header =>
    cases hv : lib.jwtVerify (jsReplace header "Bearer " "") now with
    | none => left; simp [hv]
    | some userId =>
      cases hf : findUserById st.users userId with
      | none => left; simp [hv, hf]
      | some user => right; exact ⟨header, userId, user, rfl, hv, hf, by simp [hv, hf]⟩

/-- C8: `authMiddleware` answers 401 `Please authenticate.` without calling the next
handler when the Authorization header is absent, when the token does not verify, and
when the decoded `userId` is the id of no stored user; it calls the next handler only
with `req.user` a stored user whose id is the `userId` of the verified token; and when it
rejects, every /api/tasks route answers that 401 and leaves the state unchanged. -/
theorem C8_auth_gate (lib : Lib) (st : Server) (authorization : Option String) (now : Nat) :
    (authorization = none →
        authMiddleware lib st authorization now = .reject ⟨401, .error "Please authenticate."⟩)
      ∧ (∀ header, authorization = some header →
          lib.jwtVerify (jsReplace header "Bearer " "") now = none →
          authMiddleware lib st authorization now
            = .reject ⟨401, .error "Please authenticate."⟩)
      ∧ (∀ header userId, authorization = some header →
          lib.jwtVerify (jsReplace header "Bearer " "") now = some userId →
          (∀ u ∈ st.users, userId.bind castObjectId ≠ some u._id) →
          authMiddleware lib st authorization now
            = .reject ⟨401, .error "Please authenticate."⟩)
      ∧ (∀ user token, authMiddleware lib st authorization now = .next user token →
          user ∈ st.users ∧ ∃ header userId, authorization = some header ∧
            token = jsReplace header "Bearer " "" ∧
            lib.jwtVerify token now = some userId ∧
            userId.bind castObjectId = some user._id)
      ∧ (∀ res, authMiddleware lib st authorization now = .reject res →
          res = ⟨401, .error "Please authenticate."⟩ ∧
          routeGetTasks lib st authorization now = (res, st) ∧
          (∀ body autoId, routePostTask lib st authorization now body autoId = (res, st)) ∧
          (∀ id body, routePutTask lib st authorization now id body = (res, st)) ∧
          (∀ id, routeDeleteTask lib st authorization now id = (res, st))) := by
  refine ⟨?_, ?_, ?_, ?_, ?_⟩
  · intro h
    subst h
    rfl
  · intro header h hv
    subst h
    simp [authMiddleware, hv, unauthenticated]
  · intro header userId h hv hnone
    subst h
    simp [authMiddleware, hv, findUserById_none_of_no_user hnone, unauthenticated]
  · intro user token h
    rcases authMiddleware_cases lib st authorization now with hr | ⟨header, userId, u, ha, hv, hf, hn⟩
    · rw [hr] at h
      exact absurd h (by simp)
    · rw [hn] at h
      simp only [Auth.next.injEq] at h
      obtain ⟨hu, ht⟩ := h
      subst hu
      subst ht
      obtain ⟨hm, hid⟩ := mem_users_of_findUserById hf
      exact ⟨hm, header, userId, ha, rfl, hv, hid⟩
  · intro res h
    have hres : res = ⟨401, .error "Please authenticate."⟩ := by
      rcases authMiddleware_cases lib st authorization now with hr | ⟨_, _, _, _, _, _, hn⟩
      · rw [hr] at h
        simp only [Auth.reject.injEq] at h
        rw [← h]
        rfl
      · rw [hn] at h
        exact absurd h (by simp)
    refine ⟨hres, ?_, ?_, ?_, ?_⟩
    · exact protect_reject h _
    · intro body autoId
      exact protect_reject h _
    · intro id body
      exact protect_reject h _
    · intro id
      exact protect_reject h _

theorem C8_auth_gate_witness :
    authMiddleware demoLib demoServer none 0 = .reject ⟨401, .error "Please authenticate."⟩
      ∧ authMiddleware demoLib demoServer (some "Bearer ") 0
        = .reject ⟨401, .error "Please authenticate."⟩
      ∧ authMiddleware demoLib demoServer (some "Bearer 000000000000000000000003") 0
        = .reject ⟨401, .error "Please authenticate."⟩
      ∧ routeDeleteTask demoLib demoServer none 0 "000000000000000000000010"
        = (⟨401, .error "Please authenticate."⟩, demoServer) :=
  ⟨(C8_auth_gate demoLib demoServer none 0).1 rfl,
   (C8_auth_gate demoLib demoServer (some "Bearer ") 0).2.1 "Bearer " rfl (by decide),
   (C8_auth_gate demoLib demoServer (some "Bearer 000000000000000000000003") 0).2.2.1
      "Bearer 000000000000000000000003" (some (.str "000000000000000000000003")) rfl
      (by decide) (by decide),
   ((C8_auth_gate demoLib demoServer none 0).2.2.2.2 ⟨401, .error "Please authenticate."⟩
      (by decide)).2.2.2.2 "000000000000000000000010"⟩

/-- C9: a login whose email matches no user and a login whose email matches a user but
whose password fails the hash comparison get the same response, 400
`Invalid credentials.`, which carries no token, and the state is unchanged. -/
theorem C9_login_failures_indistinguishable (lib : Lib) (st : Server) (now : Nat)
    (unknown wrong : LoginBody) (user : User) (password : String)
    (hunknown : findByEmail st.users unknown.email = none)
    (hknown : findByEmail st.users wrong.email = some user)
    (hpassword : wrong.password = some (.str password))
    (hmismatch : lib.bcryptCompare password user.password = false) :
    postLogin lib st unknown now = (⟨400, .message "Invalid credentials."⟩, st)
      ∧ postLogin lib st wrong now = (⟨400, .message "Invalid credentials."⟩, st)
      ∧ (postLogin lib st unknown now).1 = (postLogin lib st wrong now).1 := by
  have h1 : postLogin lib st unknown now = (⟨400, .message "Invalid credentials."⟩, st) := by
    simp [postLogin, hunknown]
  have h2 : postLogin lib st wrong now = (⟨400, .message "Invalid credentials."⟩, st) := by
    simp [postLogin, hknown, hpassword, hmismatch]
  exact ⟨h1, h2, by rw [h1, h2]⟩

theorem C9_login_failures_indistinguishable_witness :
    postLogin demoLib demoServer ⟨some (.str "carol@example.com"), some (.str "pw1")⟩ 0
        = (⟨400, .message "Invalid credentials."⟩, demoServer)
      ∧ postLogin demoLib demoServer ⟨some (.str "alice@example.com"), some (.str "pw2")⟩ 0
        = (⟨400, .message "Invalid credentials."⟩, demoServer)
      ∧ (postLogin demoLib demoServer
          ⟨some (.str "carol@example.com"), some (.str "pw1")⟩ 0).1
        = (postLogin demoLib demoServer
          ⟨some (.str "alice@example.com"), some (.str "pw2")⟩ 0).1 :=
  C9_login_failures_indistinguishable demoLib demoServer 0
    ⟨some (.str "carol@example.com"), some (.str "pw1")⟩
    ⟨some (.str "alice@example.com"), some (.str "pw2")⟩ alice "pw2"
    (by decide) (by decide) rfl (by decide)

theorem matchesString_self {stored : String} (h : jsTrim stored = stored) :
    matchesString (some (.str stored)) stored = true := by
  simp [matchesString, castTrim, castString, jsToString, h]

/-- C10: a registration whose email is the email of a stored user, or whose username is
the username of a stored user, is answered 409 and leaves the whole state, in particular
the `User` collection, unchanged. -/
theorem C10_register_duplicate_conflict (lib : Lib) (st : Server) (body : RegisterBody)
    (autoId salt : Nat) (u : User)
    (htrim : trimmedUsers st) (hu : u ∈ st.users)
    (hdup : body.email = some (.str u.email) ∨ body.username = some (.str u.username)) :
    ((postRegister lib st body autoId salt).1 = ⟨409, .message "Email already in use."⟩
        ∨ (postRegister lib st body autoId salt).1 = ⟨409, .message "Username already taken."⟩)
      ∧ (postRegister lib st body autoId salt).1.status = 409
      ∧ (postRegister lib st body autoId salt).2 = st := by
  have hmatch : (matchesString body.email u.email
      || matchesString body.username u.username) = true := by
    rcases hdup with h | h
    · rw [h, matchesString_self (htrim u hu).1]
      rfl
    · rw [h, matchesString_self (htrim u hu).2]
      simp
  cases hf : findExisting lib st.users body.email body.username with
  | none =>
    unfold findExisting at hf
    have hempty := pickOne_eq_none.mp hf
    have hmem : u ∈ st.users.filter (fun u => matchesString body.email u.email
        || matchesString body.username u.username) := List.mem_filter.mpr ⟨hu, hmatch⟩
    rw [hempty] at hmem
    exact absurd hmem (List.not_mem_nil u)
  | some existingUser =>
    unfold postRegister
    rw [hf]
    by_cases he : body.email = some (.str existingUser.email)
    · simp [he]
    · simp [he]

theorem C10_register_duplicate_conflict_witness :
    (postRegister demoLib demoServer
        ⟨some (.str "Al"), some (.str "Ice"), some (.str "alice@example.com"),
          some (.str "secret"), some (.num 0), some (.str "Female"), some (.str "al"),
          some (.str "Work")⟩ 3 0).1 = ⟨409, .message "Email already in use."⟩
      ∧ (postRegister demoLib demoServer
        ⟨some (.str "Al"), some (.str "Ice"), some (.str "alice@example.com"),
          some (.str "secret"), some (.num 0), some (.str "Female"), some (.str "al"),
          some (.str "Work")⟩ 3 0).2 = demoServer
      ∧ (postRegister demoLib demoServer
        ⟨some (.str "Bo"), some (.str "B"), some (.str "bo@example.com"),
          some (.str "secret"), some (.num 0), some (.str "Male"), some (.str "bob"),
          some (.str "Home")⟩ 3 0).1.status = 409 :=
  ⟨by decide,
   (C10_register_duplicate_conflict demoLib demoServer
      ⟨some (.str "Al"), some (.str "Ice"), some (.str "alice@example.com"),
        some (.str "secret"), some (.num 0), some (.str "Female"), some (.str "al"),
        some (.str "Work")⟩ 3 0 alice (by decide) (by decide) (Or.inl rfl)).2.2,
   (C10_register_duplicate_conflict demoLib demoServer
      ⟨some (.str "Bo"), some (.str "B"), some (.str "bo@example.com"),
        some (.str "secret"), some (.num 0), some (.str "Male"), some (.str "bob"),
        some (.str "Home")⟩ 3 0 bob (by decide) (by decide) (Or.inr rfl)).2.1⟩

/-! ### The invariants hold in every reachable state -/

theorem trimChars_idem (l : List Char) : trimChars (trimChars l) = trimChars l := by
  have hdef : ∀ m : List Char,
      trimChars m = List.rdropWhile isJsWhitespace (m.dropWhile isJsWhitespace) := fun _ => rfl
  have hfront : (trimChars l).dropWhile isJsWhitespace = trimChars l := by
    rw [hdef l]
    obtain ⟨rest, hrest⟩ :=
      List.rdropWhile_prefix isJsWhitespace (l := l.dropWhile isJsWhitespace)
    cases hr : List.rdropWhile isJsWhitespace (l.dropWhile isJsWhitespace) with
    | nil => rfl
    | cons c cs =>
      rw [hr] at hrest
      have hc := List.head?_dropWhile_not isJsWhitespace l
      rw [← hrest] at hc
      simp only [List.cons_append, List.head?_cons] at hc
      simp [List.dropWhile, hc]
  rw [hdef (trimChars l), hfront, hdef l, List.rdropWhile_idempotent]

theorem jsTrim_idem (s : String) : jsTrim (jsTrim s) = jsTrim s := by
  simp [jsTrim, trimChars_idem]

theorem requiredTrim_trimmed {v : Option JVal} {s : String} (h : requiredTrim v = some s) :
    jsTrim s = s := by
  unfold requiredTrim at h
  cases hv : v.bind castTrim with
  | none => rw [hv] at h; exact absurd h (by simp [requiredString])
  | some w =>
    rw [hv] at h
    have hw : ∃ x, w = jsTrim x := by
      cases v with
      | none => exact absurd hv (by simp)
      | some j =>
        simp only [Option.bind, castTrim, Option.map_eq_some'] at hv
        obtain ⟨x, _, hx⟩ := hv
        exact ⟨x, hx.symm⟩
    obtain ⟨x, hx⟩ := hw
    simp only [requiredString] at h
    split at h
    · exact absurd h (by simp)
    · simp only [Option.some.injEq] at h
      rw [← h, hx, jsTrim_idem]

theorem newUser_trimmed {lib : Lib} {body : RegisterBody} {hashed : String}
    {autoId : ObjectId} {u : User} (h : newUser lib body hashed autoId = some u) :
    jsTrim u.email = u.email ∧ jsTrim u.username = u.username := by
  unfold newUser at h
  split at h
  · next firstName lastName email password dob gender username purpose _ _ he _ _ _ hn _ =>
    split at h
    · simp only [Option.some.injEq] at h
      rw [← h]
      exact ⟨requiredTrim_trimmed he, requiredTrim_trimmed hn⟩
    · exact absurd h (by simp)
  · exact absurd h (by simp)

theorem postRegister_state (lib : Lib) (st : Server) (body : RegisterBody)
    (autoId salt : Nat) :
    (postRegister lib st body autoId salt).2.todos = st.todos
      ∧ ((postRegister lib st body autoId salt).2.users = st.users
        ∨ ∃ hashed u, newUser lib body hashed autoId = some u ∧
            (postRegister lib st body autoId salt).2.users = st.users ++ [u]) := by
  unfold postRegister
  split
  · split <;> exact ⟨rfl, Or.inl rfl⟩
  · dsimp only
    split
    · next password _ =>
      cases hn : newUser lib body (lib.bcryptHash password 10 salt) autoId with
      | none => exact ⟨rfl, Or.inl rfl⟩
      | some u =>
        dsimp only
        cases hi : insertUser st.users u with
        | none => exact ⟨rfl, Or.inl rfl⟩
        | some users =>
          refine ⟨rfl, Or.inr ⟨_, u, hn, ?_⟩⟩
          unfold insertUser at hi
          split at hi
          · exact absurd hi (by simp)
          · simp only [Option.some.injEq] at hi
            exact hi.symm
    · exact ⟨rfl, Or.inl rfl⟩

theorem postLogin_state (lib : Lib) (st : Server) (body : LoginBody) (now : Nat) :
    (postLogin lib st body now).2 = st := by
  unfold postLogin
  repeat' split
  all_goals rfl

theorem getRoot_state (st : Server) : (getRoot st).2 = st := by
  unfold getRoot
  split <;> rfl

theorem protect_state {P : Server → Prop} (lib : Lib) (st : Server)
    (authorization : Option String) (now : Nat) (handler : User → Response × Server)
    (hst : P st) (h : ∀ user, P (handler user).2) :
    P (protect lib st authorization now handler).2 := by
  unfold protect
  split
  · exact hst
  · exact h _

theorem updateOne_ids {d : Delta} {id : ObjectId} (hd : d._id = none ∨ d._id = some id) :
    ∀ {l l' : List Todo}, updateOne d id l = some l' → l'.map Todo._id = l.map Todo._id
  | [], _, h => by simp [updateOne] at h
  | t :: ts, l', h => by
    unfold updateOne at h
    split at h
    · next ht =>
      simp only [Option.some.injEq] at h
      have hid : (d.apply t)._id = t._id := by
        simp only [beq_iff_eq] at ht
        rcases hd with hd | hd <;> simp [Delta.apply, hd, ht]
      rw [← h]
      simp [hid]
    · cases hr : updateOne d id ts with
      | none => rw [hr] at h; exact absurd h (by simp)
      | some r =>
        rw [hr] at h
        simp only [Option.map_some', Option.some.injEq] at h
        rw [← h]
        simp [updateOne_ids hd hr]

theorem postTask_state (st : Server) (user : User) (body : Body) (autoId : ObjectId) :
    (postTask st user body autoId).2.users = st.users
      ∧ (uniqueTodoIds st → uniqueTodoIds (postTask st user body autoId).2) := by
  rcases postTask_cases st user body autoId with h | ⟨t, _, hfresh, h⟩
  · rw [h]
    exact ⟨rfl, id⟩
  · rw [h]
    refine ⟨rfl, fun hu => ?_⟩
    unfold uniqueTodoIds at hu ⊢
    simp only [List.map_append, List.map_cons, List.map_nil]
    refine List.Nodup.append hu (List.nodup_singleton _) ?_
    intro a ha hb
    obtain ⟨x, hx, hxa⟩ := List.mem_map.mp ha
    rw [List.mem_singleton] at hb
    exact hfresh x hx (hxa.trans hb)

theorem putTask_state (st : Server) (user : User) (id : String) (body : Body) :
    (putTask st user id body).2.users = st.users
      ∧ (uniqueTodoIds st → uniqueTodoIds (putTask st user id body).2) := by
  unfold putTask
  split
  · exact ⟨rfl, fun hn => hn⟩
  · split
    · exact ⟨rfl, fun hn => hn⟩
    · next todo _ =>
      split
      · exact ⟨rfl, fun hn => hn⟩
      · next d _ =>
        cases hu : updateOne d (d.apply todo)._id st.todos with
        | none => exact ⟨rfl, fun hn => hn⟩
        | some todos =>
          refine ⟨rfl, fun hn => ?_⟩
          have hd : d._id = none ∨ d._id = some (d.apply todo)._id := by
            cases h : d._id with
            | none => exact Or.inl rfl
            | some i => exact Or.inr (by simp [Delta.apply, h])
          unfold uniqueTodoIds at hn ⊢
          dsimp only
          rw [updateOne_ids hd hu]
          exact hn

theorem deleteTask_state (st : Server) (user : User) (id : String) :
    (deleteTask st user id).2.users = st.users
      ∧ (uniqueTodoIds st → uniqueTodoIds (deleteTask st user id).2) := by
  unfold deleteTask
  split
  · exact ⟨rfl, fun hn => hn⟩
  · split
    · exact ⟨rfl, fun hn => hn⟩
    · refine ⟨rfl, fun hn => ?_⟩
      unfold uniqueTodoIds at hn ⊢
      exact hn.sublist ((List.eraseP_sublist _).map _)

theorem reachable_invariants {lib : Lib} {st : Server} (h : Reachable lib st) :
    uniqueTodoIds st ∧ trimmedUsers st := by
  induction h with
  | init => exact ⟨List.nodup_nil, fun u hu => absurd hu (List.not_mem_nil u)⟩
  | @register st body autoId salt _ ih =>
    obtain ⟨htodos, husers⟩ := postRegister_state lib st body autoId salt
    refine ⟨?_, ?_⟩
    · unfold uniqueTodoIds
      rw [htodos]
      exact ih.1
    · rcases husers with hu | ⟨hashed, u, hn, hu⟩
      · unfold trimmedUsers
        rw [hu]
        exact ih.2
      · unfold trimmedUsers
        rw [hu]
        intro x hx
        rcases List.mem_append.mp hx with hx | hx
        · exact ih.2 x hx
        · rw [List.mem_singleton.mp hx]
          exact newUser_trimmed hn
  | @login st body now _ ih => rw [postLogin_state]; exact ih
  | @root st _ ih => rw [getRoot_state]; exact ih
  | @list st authorization now _ ih =>
    exact protect_state (P := fun s => uniqueTodoIds s ∧ trimmedUsers s) lib st
      authorization now _ ih (fun _ => ih)
  | @create st authorization now body autoId _ ih =>
    refine protect_state (P := fun s => uniqueTodoIds s ∧ trimmedUsers s) lib st
      authorization now _ ih (fun user => ?_)
    obtain ⟨hu, hn⟩ := postTask_state st user body autoId
    exact ⟨hn ih.1, by unfold trimmedUsers; rw [hu]; exact ih.2⟩
  | @update st authorization now id body _ ih =>
    refine protect_state (P := fun s => uniqueTodoIds s ∧ trimmedUsers s) lib st
      authorization now _ ih (fun user => ?_)
    obtain ⟨hu, hn⟩ := putTask_state st user id body
    exact ⟨hn ih.1, by unfold trimmedUsers; rw [hu]; exact ih.2⟩
  | @delete st authorization now id _ ih =>
    refine protect_state (P := fun s => uniqueTodoIds s ∧ trimmedUsers s) lib st
      authorization now _ ih (fun user => ?_)
    obtain ⟨hu, hn⟩ := deleteTask_state st user id
    exact ⟨hn ih.1, by unfold trimmedUsers; rw [hu]; exact ih.2⟩

/-- C11 (defect in the code): `alice` is stored with the email `alice@example.com` and
no stored user has the username `carol`.  A registration with that email written with
a blank before and after it, and the username `carol`, is matched to `alice` by the
lookup, whose filter is trimmed; the handler then compares her stored email with the
untrimmed input, finds them different, and answers 409 `Username already taken.`, for
every library and whichever matching document `findOne` returns. -/
theorem C11_padded_email_reports_free_username :
    (∃ u ∈ demoServer.users, u.email = jsTrim " alice@example.com ")
      ∧ (∀ u ∈ demoServer.users, u.username ≠ "carol")
      ∧ demoServer.users.filter (fun u =>
          matchesString (some (.str " alice@example.com ")) u.email
            || matchesString (some (.str "carol")) u.username) = [alice]
      ∧ ∀ lib : Lib,
          postRegister lib demoServer
              ⟨some (.str "Carol"), some (.str "C"), some (.str " alice@example.com "),
                some (.str "secret"), some (.num 0), some (.str "Female"),
                some (.str "carol"), some (.str "Work")⟩ 3 0
            = (⟨409, .message "Username already taken."⟩, demoServer) := by
  have hfilter : demoServer.users.filter (fun u =>
      matchesString (some (.str " alice@example.com ")) u.email
        || matchesString (some (.str "carol")) u.username) = [alice] := by decide
  refine ⟨by decide, by decide, hfilter, ?_⟩
  intro lib
  have hf : findExisting lib demoServer.users (some (.str " alice@example.com "))
      (some (.str "carol")) = some alice := by
    unfold findExisting
    rw [hfilter]
    exact pickOne_singleton _ _
  have hne : (some (JVal.str " alice@example.com ") : Option JVal)
      ≠ some (.str alice.email) := by decide
  unfold postRegister
  simp only [hf, hne, if_false]

theorem postRegister_cases (lib : Lib) (st : Server) (body : RegisterBody)
    (autoId salt : Nat) :
    ((postRegister lib st body autoId salt).1.status = 409
        ∧ (postRegister lib st body autoId salt).2 = st)
      ∨ ((postRegister lib st body autoId salt).1.status = 500
        ∧ (postRegister lib st body autoId salt).2 = { st with rootRoute := true })
      ∨ ∃ password u, body.password = some (.str password) ∧
          newUser lib body (lib.bcryptHash password 10 salt) autoId = some u ∧
          postRegister lib st body autoId salt
            = (⟨201, .message "User registered successfully!"⟩,
                { st with users := st.users ++ [u], rootRoute := true }) := by
  unfold postRegister
  split
  · left
    split <;> exact ⟨rfl, rfl⟩
  · right
    dsimp only
    split
    · next password hp =>
      cases hn : newUser lib body (lib.bcryptHash password 10 salt) autoId with
      | none => exact Or.inl ⟨rfl, rfl⟩
      | some u =>
        dsimp only
        cases hi : insertUser st.users u with
        | none => exact Or.inl ⟨rfl, rfl⟩
        | some users =>
          right
          refine ⟨password, u, hp, hn, ?_⟩
          unfold insertUser at hi
          split at hi
          · exact absurd hi (by simp)
          · simp only [Option.some.injEq] at hi
            rw [← hi]
    · exact Or.inl ⟨rfl, rfl⟩

theorem newUser_password {lib : Lib} {body : RegisterBody} {hashed : String}
    {autoId : ObjectId} {u : User} (h : newUser lib body hashed autoId = some u) :
    u.password = hashed := by
  unfold newUser at h
  split at h
  · next firstName lastName email password dob gender username purpose _ _ _ hp _ _ _ _ =>
    split at h
    · simp only [Option.some.injEq] at h
      rw [← h]
      simp only [requiredString] at hp
      split at hp
      · exact absurd hp (by simp)
      · simpa using hp.symm
    · exact absurd h (by simp)
  · exact absurd h (by simp)

theorem reachable_users {lib : Lib} {P : List User → Prop} (h0 : P [])
    (hregister : ∀ (st : Server) (body : RegisterBody) (autoId salt : Nat),
      P st.users → P (postRegister lib st body autoId salt).2.users) :
    ∀ {st : Server}, Reachable lib st → P st.users := by
  intro st hr
  induction hr with
  | init => exact h0
  | @register st body autoId salt _ ih => exact hregister st body autoId salt ih
  | @login st body now _ ih => rw [postLogin_state]; exact ih
  | @root st _ ih => rw [getRoot_state]; exact ih
  | @list st authorization now _ ih =>
    exact protect_state (P := fun s => P s.users) lib st authorization now _ ih (fun _ => ih)
  | @create st authorization now body autoId _ ih =>
    refine protect_state (P := fun s => P s.users) lib st authorization now _ ih
      (fun user => ?_)
    show P (postTask st user body autoId).2.users
    rw [(postTask_state st user body autoId).1]
    exact ih
  | @update st authorization now id body _ ih =>
    refine protect_state (P := fun s => P s.users) lib st authorization now _ ih
      (fun user => ?_)
    show P (putTask st user id body).2.users
    rw [(putTask_state st user id body).1]
    exact ih
  | @delete st authorization now id _ ih =>
    refine protect_state (P := fun s => P s.users) lib st authorization now _ ih
      (fun user => ?_)
    show P (deleteTask st user id).2.users
    rw [(deleteTask_state st user id).1]
    exact ih

/-- C12: a registration answered 201 had a string password `p`, appended exactly one
user whose `password` is `bcrypt.hash(p, 10)` with the salt of that call, and answered
with the message alone; hence in every reachable state every stored password is an
output of `bcrypt.hash` at work factor 10.  For a hash that never returns its input,
the stored value is not `p`. -/
theorem C12_register_stores_hash (lib : Lib) :
    (∀ (st : Server) (body : RegisterBody) (autoId salt : Nat),
        (postRegister lib st body autoId salt).1.status = 201 →
        ∃ p u, body.password = some (.str p) ∧
          u.password = lib.bcryptHash p 10 salt ∧
          ((∀ q s, lib.bcryptHash q 10 s ≠ q) → u.password ≠ p) ∧
          postRegister lib st body autoId salt
            = (⟨201, .message "User registered successfully!"⟩,
                { st with users := st.users ++ [u], rootRoute := true }))
      ∧ (∀ st : Server, Reachable lib st → ∀ u ∈ st.users,
          ∃ p salt, u.password = lib.bcryptHash p 10 salt ∧
            ((∀ q s, lib.bcryptHash q 10 s ≠ q) → u.password ≠ p)) := by
  have hstep : ∀ (st : Server) (body : RegisterBody) (autoId salt : Nat),
      (postRegister lib st body autoId salt).2.users = st.users
        ∨ ∃ p u, body.password = some (.str p) ∧ u.password = lib.bcryptHash p 10 salt ∧
            postRegister lib st body autoId salt
              = (⟨201, .message "User registered successfully!"⟩,
                  { st with users := st.users ++ [u], rootRoute := true }) := by
    intro st body autoId salt
    rcases postRegister_cases lib st body autoId salt with h | h | ⟨p, u, hp, hn, h⟩
    · exact Or.inl (by rw [h.2])
    · exact Or.inl (by rw [h.2])
    · exact Or.inr ⟨p, u, hp, newUser_password hn, h⟩
  constructor
  · intro st body autoId salt hok
    rcases postRegister_cases lib st body autoId salt with h | h | ⟨p, u, hp, hn, h⟩
    · rw [h.1] at hok
      exact absurd hok (by decide)
    · rw [h.1] at hok
      exact absurd hok (by decide)
    · have hpw := newUser_password hn
      exact ⟨p, u, hp, hpw, fun hne => by rw [hpw]; exact hne p salt, h⟩
  · intro st hr
    refine reachable_users (P := fun users => ∀ u ∈ users, ∃ p salt,
      u.password = lib.bcryptHash p 10 salt ∧
        ((∀ q s, lib.bcryptHash q 10 s ≠ q) → u.password ≠ p)) ?_ ?_ hr
    · intro u hu
      exact absurd hu (List.not_mem_nil u)
    · intro st body autoId salt ih u hu
      rcases hstep st body autoId salt with h | ⟨p, v, _, hpw, h⟩
      · rw [h] at hu
        exact ih u hu
      · rw [h] at hu
        rcases List.mem_append.mp hu with hu | hu
        · exact ih u hu
        · rw [List.mem_singleton.mp hu]
          exact ⟨p, salt, hpw, fun hne => by rw [hpw]; exact hne p salt⟩

theorem demoLib_hash_ne (q : String) (rounds salt : Nat) :
    demoLib.bcryptHash q rounds salt ≠ q := by
  intro h
  have hl := congrArg String.length h
  simp [demoLib, String.length_append] at hl
  revert hl
  decide

theorem C12_register_stores_hash_witness :
    postRegister demoLib Server.init (aliceForm (.num 0)) 1 7
        = (⟨201, .message "User registered successfully!"⟩, ⟨[alice], [], true⟩)
      ∧ ∃ p u, (aliceForm (.num 0)).password = some (.str p) ∧
          u.password = demoLib.bcryptHash p 10 7 ∧ u.password ≠ p ∧
          postRegister demoLib Server.init (aliceForm (.num 0)) 1 7
            = (⟨201, .message "User registered successfully!"⟩,
                { Server.init with users := Server.init.users ++ [u], rootRoute := true }) := by
  refine ⟨by decide, ?_⟩
  obtain ⟨p, u, h1, h2, h3, h4⟩ :=
    (C12_register_stores_hash demoLib).1 Server.init (aliceForm (.num 0)) 1 7 (by decide)
  exact ⟨p, u, h1, h2, h3 (fun q s => demoLib_hash_ne q 10 s), h4⟩

theorem requiredTrim_nonempty {v : Option JVal} {s : String} (h : requiredTrim v = some s) :
    jsTrim s ≠ "" := by
  rw [requiredTrim_trimmed h]
  unfold requiredTrim at h
  cases hv : v.bind castTrim with
  | none => rw [hv] at h; exact absurd h (by simp [requiredString])
  | some w =>
    rw [hv] at h
    simp only [requiredString] at h
    split at h
    · exact absurd h (by simp)
    · next hne =>
      simp only [Option.some.injEq] at h
      rw [← h]
      exact hne

theorem assignBody_text {body : Body} {d : Delta} (h : assignBody body = some d) :
    (body.text = none ∧ d.text = none)
      ∨ ∃ v s, body.text = some v ∧ requiredTrim (some v) = some s ∧ d.text = some s := by
  unfold assignBody at h
  split at h
  · next id text completed owner _ ht _ _ =>
    simp only [Option.some.injEq] at h
    cases hb : body.text with
    | none =>
      rw [hb] at ht
      simp only [castPath, Option.some.injEq] at ht
      exact Or.inl ⟨rfl, by rw [← h, ← ht]⟩
    | some v =>
      rw [hb] at ht
      simp only [castPath, Option.map_eq_some'] at ht
      obtain ⟨x, hx, hxt⟩ := ht
      exact Or.inr ⟨v, x, rfl, hx, by rw [← h, ← hxt]⟩
  · exact absurd h (by simp)

theorem apply_text_nonempty {body : Body} {d : Delta} (h : assignBody body = some d)
    {t : Todo} (ht : jsTrim t.text ≠ "") : jsTrim (d.apply t).text ≠ "" := by
  rcases assignBody_text h with ⟨_, hd⟩ | ⟨v, s, _, hs, hd⟩
  · simpa [Delta.apply, hd] using ht
  · simpa [Delta.apply, hd] using requiredTrim_nonempty hs

theorem updateOne_forall {P : Todo → Prop} {d : Delta} {id : ObjectId}
    (hd : ∀ t, P t → P (d.apply t)) :
    ∀ {l l' : List Todo}, updateOne d id l = some l' → (∀ x ∈ l, P x) → ∀ x ∈ l', P x
  | [], _, h, _ => by simp [updateOne] at h
  | t :: ts, l', h, hl => by
    unfold updateOne at h
    split at h
    · simp only [Option.some.injEq] at h
      rw [← h]
      intro x hx
      rcases List.mem_cons.mp hx with hx | hx
      · rw [hx]
        exact hd t (hl t (List.mem_cons_self _ _))
      · exact hl x (List.mem_cons_of_mem _ hx)
    · cases hr : updateOne d id ts with
      | none => rw [hr] at h; exact absurd h (by simp)
      | some r =>
        rw [hr] at h
        simp only [Option.map_some', Option.some.injEq] at h
        rw [← h]
        intro x hx
        rcases List.mem_cons.mp hx with hx | hx
        · rw [hx]
          exact hl t (List.mem_cons_self _ _)
        · exact updateOne_forall hd hr (fun y hy => hl y (List.mem_cons_of_mem _ hy)) x hx

theorem putTask_cases (st : Server) (user : User) (id : String) (body : Body) :
    putTask st user id body = (⟨400, .error "Failed to update task."⟩, st)
      ∨ (∃ oid, parseObjectId id = some oid ∧
          st.todos.find? (ownedBy oid user._id) = none ∧
          putTask st user id body = (⟨404, .error "Task not found."⟩, st))
      ∨ ∃ oid todo d todos, parseObjectId id = some oid ∧
          st.todos.find? (ownedBy oid user._id) = some todo ∧
          assignBody body = some d ∧
          updateOne d (d.apply todo)._id st.todos = some todos ∧
          putTask st user id body
            = (⟨200, .todo (d.apply todo)⟩, { st with todos := todos }) := by
  cases hid : parseObjectId id with
  | none => exact Or.inl (by simp [putTask, hid])
  | some oid =>
    cases hf : st.todos.find? (ownedBy oid user._id) with
    | none => exact Or.inr (Or.inl ⟨oid, rfl, hf, by simp [putTask, hid, hf]⟩)
    | some todo =>
      cases ha : assignBody body with
      | none => exact Or.inl (by simp [putTask, hid, hf, ha])
      | some d =>
        cases hu : updateOne d (d.apply todo)._id st.todos with
        | none => exact Or.inl (by simp [putTask, hid, hf, ha, hu])
        | some todos =>
          exact Or.inr (Or.inr ⟨oid, todo, d, todos, rfl, hf, rfl, hu,
            by simp [putTask, hid, hf, ha, hu]⟩)

theorem putTask_texts (st : Server) (user : User) (id : String) (body : Body)
    (h : ∀ x ∈ st.todos, jsTrim x.text ≠ "") :
    ∀ x ∈ (putTask st user id body).2.todos, jsTrim x.text ≠ "" := by
  rcases putTask_cases st user id body with
    hc | ⟨_, _, _, hc⟩ | ⟨oid, todo, d, todos, _, _, ha, hu, hc⟩
  · rw [hc]; exact h
  · rw [hc]; exact h
  · rw [hc]
    exact updateOne_forall (P := fun t => jsTrim t.text ≠ "")
      (fun t ht => apply_text_nonempty ha ht) hu h

theorem postTask_texts (st : Server) (user : User) (body : Body) (autoId : ObjectId)
    (h : ∀ x ∈ st.todos, jsTrim x.text ≠ "") :
    ∀ x ∈ (postTask st user body autoId).2.todos, jsTrim x.text ≠ "" := by
  rcases postTask_cases st user body autoId with hc | ⟨t, hn, _, hc⟩
  · rw [hc]; exact h
  · rw [hc]
    intro x hx
    rcases List.mem_append.mp hx with hx | hx
    · exact h x hx
    · rw [List.mem_singleton.mp hx]
      obtain ⟨_, text, _, _, h2, _, ht⟩ := newTodo_eq_some hn
      rw [ht]
      exact requiredTrim_nonempty h2

theorem deleteTask_texts (st : Server) (user : User) (id : String)
    (h : ∀ x ∈ st.todos, jsTrim x.text ≠ "") :
    ∀ x ∈ (deleteTask st user id).2.todos, jsTrim x.text ≠ "" := by
  unfold deleteTask
  split
  · exact h
  · split
    · exact h
    · intro x hx
      exact h x ((List.eraseP_sublist _).subset hx)

theorem reachable_texts {lib : Lib} {st : Server} (hr : Reachable lib st) :
    ∀ x ∈ st.todos, jsTrim x.text ≠ "" := by
  induction hr with
  | init => intro x hx; exact absurd hx (List.not_mem_nil x)
  | @register st body autoId salt _ ih =>
    rw [(postRegister_state lib st body autoId salt).1]
    exact ih
  | @login st body now _ ih => rw [postLogin_state]; exact ih
  | @root st _ ih => rw [getRoot_state]; exact ih
  | @list st authorization now _ ih =>
    exact protect_state (P := fun s => ∀ x ∈ s.todos, jsTrim x.text ≠ "") lib st
      authorization now _ ih (fun _ => ih)
  | @create st authorization now body autoId _ ih =>
    exact protect_state (P := fun s => ∀ x ∈ s.todos, jsTrim x.text ≠ "") lib st
      authorization now _ ih (fun user => postTask_texts st user body autoId ih)
  | @update st authorization now id body _ ih =>
    exact protect_state (P := fun s => ∀ x ∈ s.todos, jsTrim x.text ≠ "") lib st
      authorization now _ ih (fun user => putTask_texts st user id body ih)
  | @delete st authorization now id _ ih =>
    exact protect_state (P := fun s => ∀ x ∈ s.todos, jsTrim x.text ≠ "") lib st
      authorization now _ ih (fun user => deleteTask_texts st user id ih)

theorem find?_ownedBy_ne_none {todos : List Todo} {oid owner : ObjectId}
    (h : ∃ x ∈ todos, x._id = oid ∧ x.owner = owner) :
    todos.find? (ownedBy oid owner) ≠ none := by
  obtain ⟨x, hx, hid, ho⟩ := h
  intro hf
  rw [List.find?_eq_none] at hf
  exact hf x hx (by simp [ownedBy, hid, ho])

theorem assignBody_blank {body : Body}
    (h : body.text = some .null
      ∨ ∃ s, body.text = some (.str s) ∧ ∀ c ∈ s.data, isJsWhitespace c = true) :
    assignBody body = none := by
  cases ha : assignBody body with
  | none => rfl
  | some d =>
    rcases assignBody_text ha with ⟨hn, _⟩ | ⟨v, s, hv, hs, _⟩
    · rcases h with h | ⟨_, h, _⟩ <;> rw [hn] at h <;> exact absurd h (by simp)
    · have hb : requiredTrim (some v) = none := by
        apply requiredTrim_blank
        rw [← hv]
        exact Or.inr h
      rw [hb] at hs
      exact absurd hs (by simp)

/-- C13: in every reachable state every stored task has a text that is non-empty after
trimming.  POST /api/tasks either answers 400 and leaves the state unchanged or persists
a task whose trimmed text is non-empty; PUT /api/tasks/:id on a task of the caller either
answers 400 and leaves the state unchanged or answers 200 with a task whose trimmed text
is non-empty, all stored texts staying non-empty; and a patch whose text is `null`, empty
or white space only is answered 400 with the state unchanged. -/
theorem C13_task_text_nonempty (lib : Lib) :
    (∀ st : Server, Reachable lib st → ∀ t ∈ st.todos, jsTrim t.text ≠ "")
      ∧ (∀ (st : Server) (authorization : Option String) (now : Nat) (A : User)
          (token : String) (body : Body) (autoId : ObjectId),
          authMiddleware lib st authorization now = .next A token →
          (routePostTask lib st authorization now body autoId
              = (⟨400, .error "Failed to create task."⟩, st)
            ∨ ∃ t, jsTrim t.text ≠ "" ∧
                routePostTask lib st authorization now body autoId
                  = (⟨201, .todo t⟩, { st with todos := st.todos ++ [t] })))
      ∧ (∀ (st : Server) (authorization : Option String) (now : Nat) (A : User)
          (token : String) (id : String) (body : Body) (oid : ObjectId),
          authMiddleware lib st authorization now = .next A token →
          parseObjectId id = some oid →
          (∃ x ∈ st.todos, x._id = oid ∧ x.owner = A._id) →
          (∀ x ∈ st.todos, jsTrim x.text ≠ "") →
          (routePutTask lib st authorization now id body
              = (⟨400, .error "Failed to update task."⟩, st)
            ∨ ∃ t todos, jsTrim t.text ≠ "" ∧ (∀ x ∈ todos, jsTrim x.text ≠ "") ∧
                routePutTask lib st authorization now id body
                  = (⟨200, .todo t⟩, { st with todos := todos })))
      ∧ (∀ (st : Server) (authorization : Option String) (now : Nat) (A : User)
          (token : String) (id : String) (body : Body) (oid : ObjectId),
          authMiddleware lib st authorization now = .next A token →
          parseObjectId id = some oid →
          (∃ x ∈ st.todos, x._id = oid ∧ x.owner = A._id) →
          (body.text = some .null
            ∨ ∃ s, body.text = some (.str s) ∧ ∀ c ∈ s.data, isJsWhitespace c = true) →
          routePutTask lib st authorization now id body
            = (⟨400, .error "Failed to update task."⟩, st)) := by
  refine ⟨fun st hr => reachable_texts hr, ?_, ?_, ?_⟩
  · intro st authorization now A token body autoId hauth
    simp only [routePostTask, protect_next hauth]
    rcases postTask_cases st A body autoId with hc | ⟨t, hn, _, hc⟩
    · exact Or.inl hc
    · obtain ⟨_, text, _, _, h2, _, ht⟩ := newTodo_eq_some hn
      exact Or.inr ⟨t, by rw [ht]; exact requiredTrim_nonempty h2, hc⟩
  · intro st authorization now A token id body oid hauth hid hfound htexts
    simp only [routePutTask, protect_next hauth]
    rcases putTask_cases st A id body with
      hc | ⟨oid', hid', hf, _⟩ | ⟨oid', todo, d, todos, _, hf, ha, hu, hc⟩
    · exact Or.inl hc
    · rw [hid] at hid'
      simp only [Option.some.injEq] at hid'
      subst hid'
      exact absurd hf (find?_ownedBy_ne_none hfound)
    · refine Or.inr ⟨d.apply todo, todos, ?_, ?_, hc⟩
      · exact apply_text_nonempty ha (htexts todo (List.mem_of_find?_eq_some hf))
      · exact updateOne_forall (P := fun t => jsTrim t.text ≠ "")
          (fun t ht => apply_text_nonempty ha ht) hu htexts
  · intro st authorization now A token id body oid hauth hid hfound hblank
    simp only [routePutTask, protect_next hauth]
    cases hf : st.todos.find? (ownedBy oid A._id) with
    | none => exact absurd hf (find?_ownedBy_ne_none hfound)
    | some todo => simp [putTask, hid, hf, assignBody_blank hblank]

theorem C13_task_text_nonempty_witness :
    routePutTask demoLib demoServer aliceAuth 0 "000000000000000000000010"
        ⟨none, some (.str "  \n"), some (.bool true), none⟩
      = (⟨400, .error "Failed to update task."⟩, demoServer)
      ∧ (routePutTask demoLib demoServer aliceAuth 0 "000000000000000000000010"
            ⟨none, some (.str " water plants "), none, none⟩
          = (⟨400, .error "Failed to update task."⟩, demoServer)
        ∨ ∃ t todos, jsTrim t.text ≠ "" ∧ (∀ x ∈ todos, jsTrim x.text ≠ "") ∧
            routePutTask demoLib demoServer aliceAuth 0 "000000000000000000000010"
                ⟨none, some (.str " water plants "), none, none⟩
              = (⟨200, .todo t⟩, { demoServer with todos := todos }))
      ∧ routePutTask demoLib demoServer aliceAuth 0 "000000000000000000000010"
          ⟨none, some (.str " water plants "), none, none⟩
        = (⟨200, .todo ⟨16, "water plants", some false, 1⟩⟩,
            { demoServer with
              todos := [⟨16, "water plants", some false, 1⟩,
                ⟨17, "walk dog", some false, 2⟩] }) :=
  ⟨(C13_task_text_nonempty demoLib).2.2.2 demoServer aliceAuth 0 alice
      "000000000000000000000001" "000000000000000000000010"
      ⟨none, some (.str "  \n"), some (.bool true), none⟩ 16 (by decide) (by decide)
      ⟨⟨16, "buy milk", some false, 1⟩, by decide, rfl, rfl⟩
      (Or.inr ⟨"  \n", rfl, by decide⟩),
   (C13_task_text_nonempty demoLib).2.2.1 demoServer aliceAuth 0 alice
      "000000000000000000000001" "000000000000000000000010"
      ⟨none, some (.str " water plants "), none, none⟩ 16 (by decide) (by decide)
      ⟨⟨16, "buy milk", some false, 1⟩, by decide, rfl, rfl⟩ (by decide),
   by decide⟩

theorem updateOne_split {d : Delta} {id : ObjectId} {t : Todo} (ht : t._id = id)
    (after : List Todo) :
    ∀ before : List Todo, (∀ x ∈ before, x._id ≠ id) →
      updateOne d id (before ++ t :: after) = some (before ++ d.apply t :: after)
  | [], _ => by simp [updateOne, ht]
  | b :: bs, h => by
    have hb : ¬ b._id = id := h b (List.mem_cons_self _ _)
    have ih : updateOne d id (bs ++ t :: after) = some (bs ++ d.apply t :: after) :=
      updateOne_split ht after bs (fun x hx => h x (List.mem_cons_of_mem _ hx))
    simp [updateOne, hb, ih]

theorem assignBody_typed (text : Option String) (completed : Option Bool)
    (htext : ∀ s, text = some s → jsTrim s ≠ "") :
    assignBody ⟨none, text.map .str, completed.map .bool, none⟩
      = some ⟨none, text.map jsTrim, completed.map some, none⟩ := by
  cases text with
  | none => cases completed <;> rfl
  | some s =>
    have hs : jsTrim s ≠ "" := htext s rfl
    cases completed <;>
      simp [assignBody, castPath, requiredTrim, castTrim, castString, jsToString,
        requiredString, hs, castBoolean, castObjectId]

/-- C14: for a task owned by the caller and a patch that names only `text` (a string,
non-empty after trimming) and/or `completed` (a boolean), PUT /api/tasks/:id answers 200
with the updated task: the named fields take the patch's values, the text trimmed, `_id`,
`owner` and the fields not named keep their values; the task is replaced in place and
every other stored task, and the rest of the state, is unchanged. -/
theorem C14_update_merges_patch (lib : Lib) (st : Server) (authorization : Option String)
    (now : Nat) (A : User) (token : String) (id : String) (todo : Todo)
    (text : Option String) (completed : Option Bool)
    (hunique : uniqueTodoIds st)
    (hauth : authMiddleware lib st authorization now = .next A token)
    (hmem : todo ∈ st.todos) (hid : parseObjectId id = some todo._id)
    (howner : todo.owner = A._id)
    (htext : ∀ s, text = some s → jsTrim s ≠ "") :
    ∃ before after, st.todos = before ++ todo :: after ∧
      routePutTask lib st authorization now id
          ⟨none, text.map .str, completed.map .bool, none⟩
        = (⟨200, .todo ⟨todo._id, (text.map jsTrim).getD todo.text,
              (completed.map some).getD todo.completed, todo.owner⟩⟩,
            { st with todos := before ++
                ⟨todo._id, (text.map jsTrim).getD todo.text,
                  (completed.map some).getD todo.completed, todo.owner⟩ :: after }) := by
  obtain ⟨before, after, hsplit⟩ := List.append_of_mem hmem
  refine ⟨before, after, hsplit, ?_⟩
  have hf : st.todos.find? (ownedBy todo._id A._id) = some todo := by
    cases hfind : st.todos.find? (ownedBy todo._id A._id) with
    | none => exact absurd hfind (find?_ownedBy_ne_none ⟨todo, hmem, rfl, howner⟩)
    | some t' =>
      have hp := List.find?_some hfind
      simp only [ownedBy, Bool.and_eq_true, beq_iff_eq] at hp
      rw [todo_eq_of_id_eq hunique (List.mem_of_find?_eq_some hfind) hmem hp.1]
  have hbefore : ∀ x ∈ before, x._id ≠ todo._id := by
    intro x hx hxe
    have hxm : x ∈ st.todos := by
      rw [hsplit]
      exact List.mem_append_left _ hx
    have hxt : x = todo := todo_eq_of_id_eq hunique hxm hmem hxe
    have hn : (before ++ todo :: after).Nodup := by
      have hu : ((before ++ todo :: after).map Todo._id).Nodup := by
        rw [← hsplit]
        exact hunique
      exact List.Nodup.of_map _ hu
    have hdis := (List.nodup_append.mp hn).2.2
    exact hdis hx (by rw [hxt]; exact List.mem_cons_self _ _)
  have ha := assignBody_typed text completed htext
  have happly : (⟨none, text.map jsTrim, completed.map some, none⟩ : Delta).apply todo
      = ⟨todo._id, (text.map jsTrim).getD todo.text,
          (completed.map some).getD todo.completed, todo.owner⟩ := rfl
  have hu : updateOne ⟨none, text.map jsTrim, completed.map some, none⟩ todo._id st.todos
      = some (before ++ (⟨none, text.map jsTrim, completed.map some, none⟩ : Delta).apply todo
          :: after) := by
    rw [hsplit]
    exact updateOne_split rfl after before hbefore
  simp only [routePutTask, protect_next hauth, putTask, hid, hf, ha]
  rw [happly] at hu ⊢
  simp only [hu]

theorem C14_update_merges_patch_witness :
    ∃ before after, demoServer.todos = before ++ ⟨16, "buy milk", some false, 1⟩ :: after ∧
      routePutTask demoLib demoServer aliceAuth 0 "000000000000000000000010"
          ⟨none, (some " buy oat milk ").map .str, (some true).map .bool, none⟩
        = (⟨200, .todo ⟨16, "buy oat milk", some true, 1⟩⟩,
            { demoServer with todos := before ++ ⟨16, "buy oat milk", some true, 1⟩ :: after }) :=
  C14_update_merges_patch demoLib demoServer aliceAuth 0 alice "000000000000000000000001"
    "000000000000000000000010" ⟨16, "buy milk", some false, 1⟩ (some " buy oat milk ")
    (some true) (by decide) (by decide) (by decide) (by decide) rfl (by decide)

/-- C15 (defect in the code): on the freshly started server no handler for `GET /` has
been added, so the request falls through to the router's 404; the route exists only once
a registration request has passed the duplicate check, where `app.get('/', ...)` is
called, and a registration stopped by the duplicate check does not add it. -/
theorem C15_root_route_missing_on_fresh_server :
    getRoot Server.init = (⟨404, .text "Cannot GET /"⟩, Server.init)
      ∧ (getRoot Server.init).1.status ≠ 200
      ∧ getRoot (postRegister demoLib Server.init (aliceForm (.num 0)) 1 7).2
        = (⟨200, .text "Your backend server is running and ready!"⟩,
            ⟨[alice], [], true⟩)
      ∧ getRoot (postRegister demoLib ⟨[alice], [], false⟩ (aliceForm (.num 0)) 2 7).2
        = (⟨404, .text "Cannot GET /"⟩, ⟨[alice], [], false⟩) := by
  decide

theorem newUser_blank_purpose {lib : Lib} {body : RegisterBody} {hashed : String}
    {autoId : ObjectId} (h : requiredTrim body.purpose = none) :
    newUser lib body hashed autoId = none := by
  unfold newUser
  split
  · next hp => rw [h] at hp; exact absurd hp (by simp)
  · rfl

/-- C17 (defect in the code): with every field filled in, `purpose` set to `Other` and
`customPurpose` made of blanks, `isRegisterFormValid` is `true`, yet the purpose that
`handleSubmit` passes to `onRegister` is empty after trimming; the `purpose` path of the
`User` schema (required, trimmed) rejects it, so the backend never answers 201 to this
submission. -/
theorem C17_valid_form_sends_blank_purpose :
    isRegisterFormValid
        ⟨"alice@example.com", "pw1", "Alice", "Liddell", "1990-01-01", "Female", "alice",
          "Other", "   "⟩ = true
      ∧ handleSubmit true
          ⟨"alice@example.com", "pw1", "Alice", "Liddell", "1990-01-01", "Female", "alice",
            "Other", "   "⟩
        = .onRegister
            ⟨some (.str "Alice"), some (.str "Liddell"), some (.str "alice@example.com"),
              some (.str "pw1"), some (.str "1990-01-01"), some (.str "Female"),
              some (.str "alice"), some (.str "   ")⟩
      ∧ jsTrim (finalPurpose
          ⟨"alice@example.com", "pw1", "Alice", "Liddell", "1990-01-01", "Female", "alice",
            "Other", "   "⟩) = ""
      ∧ ∀ (lib : Lib) (st : Server) (autoId salt : Nat),
          (postRegister lib st
            ⟨some (.str "Alice"), some (.str "Liddell"), some (.str "alice@example.com"),
              some (.str "pw1"), some (.str "1990-01-01"), some (.str "Female"),
              some (.str "alice"), some (.str "   ")⟩ autoId salt).1.status ≠ 201 := by
  refine ⟨by decide, by decide, by decide, ?_⟩
  intro lib st autoId salt
  rcases postRegister_cases lib st
    ⟨some (.str "Alice"), some (.str "Liddell"), some (.str "alice@example.com"),
      some (.str "pw1"), some (.str "1990-01-01"), some (.str "Female"),
      some (.str "alice"), some (.str "   ")⟩ autoId salt with h | h | ⟨p, u, _, hn, _⟩
  · rw [h.1]; decide
  · rw [h.1]; decide
  · rw [newUser_blank_purpose (by decide)] at hn
    exact absurd hn (by simp)

theorem hexDigit_hexChar : ∀ d, d < 16 → hexDigit (hexChar d) = some d := by
  decide

theorem toHexDigits_length : ∀ k n, (toHexDigits k n).length = k
  | 0, _ => rfl
  | k + 1, n => by simp [toHexDigits, toHexDigits_length k]

theorem parseHex_toHexDigits :
    ∀ (k n acc : Nat) (rest : List Char),
      parseHex (toHexDigits k n ++ rest) acc = parseHex rest (16 ^ k * acc + n % 16 ^ k)
  | 0, n, acc, rest => by simp [toHexDigits, Nat.mod_one]
  | k + 1, n, acc, rest => by
    have hd : hexDigit (hexChar (n % 16)) = some (n % 16) :=
      hexDigit_hexChar _ (Nat.mod_lt _ (by decide))
    rw [toHexDigits, List.append_assoc, parseHex_toHexDigits k (n / 16) acc]
    simp only [List.singleton_append, parseHex, hd]
    congr 1
    rw [Nat.pow_succ', Nat.mod_mul]
    ring

theorem parseObjectId_oidToString {n : Nat} (h : n < 16 ^ 24) :
    parseObjectId (oidToString n) = some n := by
  have hp := parseHex_toHexDigits 24 n 0 []
  rw [List.append_nil] at hp
  show (if (toHexDigits 24 n).length = 24 then parseHex (toHexDigits 24 n) 0 else none)
    = some n
  rw [toHexDigits_length, if_pos rfl, hp, Nat.mul_zero, Nat.zero_add, Nat.mod_eq_of_lt h]
  rfl

theorem jsReplace_bearer (token : String) : jsReplace ("Bearer " ++ token) "Bearer " "" = token := by
  have hd : ("Bearer " ++ token).data = 'B' :: 'e' :: 'a' :: 'r' :: 'e' :: 'r' :: ' ' :: token.data := by
    rw [String.data_append]
    rfl
  have hp : "Bearer ".data = ['B', 'e', 'a', 'r', 'e', 'r', ' '] := rfl
  have hr : "".data = [] := rfl
  unfold jsReplace
  rw [hd, hp, hr]
  simp [replaceFirstChars, List.isPrefixOf]

theorem castObjectId_oidToString {n : Nat} (h : n < 16 ^ 24) :
    castObjectId (.str (oidToString n)) = some n := by
  simp [castObjectId, jsToString, parseObjectId_oidToString h]

theorem authMiddleware_bearer {lib : Lib} {st : Server} {user : User} {rest : List User}
    {issued now : Nat} (husers : st.users = user :: rest) (hid : user._id < 16 ^ 24)
    (hverify : lib.jwtVerify (lib.jwtSign (oidToString user._id) issued) now
      = some (some (.str (oidToString user._id)))) :
    authMiddleware lib st (bearer (lib.jwtSign (oidToString user._id) issued)) now
      = .next user (lib.jwtSign (oidToString user._id) issued) := by
  simp [authMiddleware, bearer, jsReplace_bearer, hverify, findUserById,
    castObjectId_oidToString hid, husers]

/-- C16: from the initial state, for every library whose hash of `pw1` is non-empty and
compares equal to `pw1`, whose date cast accepts the submitted date and whose tokens
verify during the hour (3600 seconds) after they were signed, and for generated ids that
fit an ObjectId, the scenario register, login, create `buy milk`, list, update
`{completed: true}`, list, delete, list succeeds at every step; the three lists are the
single task with `completed = false`, the same task with `completed = true`, and the
empty list. -/
theorem C16_scenario (lib : Lib) (dob : JVal) (date : Int) (userId taskId salt : Nat)
    (clock : Nat → Nat)
    (hdate : lib.castDate dob = some date)
    (hhash : lib.bcryptHash "pw1" 10 salt ≠ "")
    (hcompare : lib.bcryptCompare "pw1" (lib.bcryptHash "pw1" 10 salt) = true)
    (hverify : ∀ t, clock 1 ≤ t → t < clock 1 + 3600 →
      lib.jwtVerify (lib.jwtSign (oidToString userId) (clock 1)) t
        = some (some (.str (oidToString userId))))
    (hclock : ∀ k, 2 ≤ k → k ≤ 7 → clock 1 ≤ clock k ∧ clock k < clock 1 + 3600)
    (huser : userId < 16 ^ 24) (htask : taskId < 16 ^ 24) :
    scenario lib dob userId taskId salt clock
      = { register := ⟨201, .message "User registered successfully!"⟩
          login := ⟨200, .session (lib.jwtSign (oidToString userId) (clock 1)) userId "alice"
            "Login successful."⟩
          create := ⟨201, .todo ⟨taskId, "buy milk", some false, userId⟩⟩
          list1 := ⟨200, .todos [⟨taskId, "buy milk", some false, userId⟩]⟩
          update := ⟨200, .todo ⟨taskId, "buy milk", some true, userId⟩⟩
          list2 := ⟨200, .todos [⟨taskId, "buy milk", some true, userId⟩]⟩
          delete := ⟨200, .todo ⟨taskId, "buy milk", some true, userId⟩⟩
          list3 := ⟨200, .todos []⟩ } := by
  have e1 : requiredTrim (some (.str "Alice")) = some "Alice" := by decide
  have e2 : requiredTrim (some (.str "Liddell")) = some "Liddell" := by decide
  have e3 : requiredTrim (some (.str "alice@example.com")) = some "alice@example.com" := by
    decide
  have e4 : requiredTrim (some (.str "alice")) = some "alice" := by decide
  have e5 : requiredTrim (some (.str "Work")) = some "Work" := by decide
  have e6 : requiredString (castString (JVal.str "Female")) = some "Female" := by
    decide
  have e7 : "Female" ∈ genders := by decide
  have e8 : requiredString (some (lib.bcryptHash "pw1" 10 salt))
      = some (lib.bcryptHash "pw1" 10 salt) := by
    simp [requiredString, hhash]
  have e9 : requiredTrim (some (.str "buy milk")) = some "buy milk" := by decide
  have e10 : matchesString (some (.str "alice@example.com")) "alice@example.com" = true := by
    decide
  have h1 : postRegister lib Server.init (aliceForm dob) userId salt
      = (⟨201, .message "User registered successfully!"⟩,
          ⟨[⟨userId, "Alice", "Liddell", "alice@example.com", lib.bcryptHash "pw1" 10 salt,
            date, "Female", "alice", "Work"⟩], [], true⟩) := by
    simp [postRegister, findExisting, pickOne, Server.init, aliceForm, newUser, e1, e2, e3,
      e4, e5,
      e6, e7, e8, hdate, insertUser]
  have h2 : ∀ todos : List Todo, postLogin lib
      ⟨[⟨userId, "Alice", "Liddell", "alice@example.com", lib.bcryptHash "pw1" 10 salt,
        date, "Female", "alice", "Work"⟩], todos, true⟩
      ⟨some (.str "alice@example.com"), some (.str "pw1")⟩ (clock 1)
      = (⟨200, .session (lib.jwtSign (oidToString userId) (clock 1)) userId "alice"
            "Login successful."⟩,
          ⟨[⟨userId, "Alice", "Liddell", "alice@example.com", lib.bcryptHash "pw1" 10 salt,
            date, "Female", "alice", "Work"⟩], todos, true⟩) := by
    intro todos
    simp [postLogin, findByEmail, e10, hcompare]
  have hauth : ∀ (todos : List Todo) (k : Nat), 2 ≤ k → k ≤ 7 →
      authMiddleware lib
        ⟨[⟨userId, "Alice", "Liddell", "alice@example.com", lib.bcryptHash "pw1" 10 salt,
          date, "Female", "alice", "Work"⟩], todos, true⟩
        (bearer (lib.jwtSign (oidToString userId) (clock 1))) (clock k)
      = .next ⟨userId, "Alice", "Liddell", "alice@example.com",
          lib.bcryptHash "pw1" 10 salt, date, "Female", "alice", "Work"⟩
          (lib.jwtSign (oidToString userId) (clock 1)) := by
    intro todos k hk2 hk7
    exact @authMiddleware_bearer lib _ ⟨userId, "Alice", "Liddell", "alice@example.com",
      lib.bcryptHash "pw1" 10 salt, date, "Female", "alice", "Work"⟩ [] (clock 1) (clock k)
      rfl huser (hverify (clock k) (hclock k hk2 hk7).1 (hclock k hk2 hk7).2)
  have hid : parseObjectId (oidToString taskId) = some taskId :=
    parseObjectId_oidToString htask
  simp only [scenario, h1, h2, tokenOf, taskIdOf, routePostTask, routeGetTasks,
    routePutTask, routeDeleteTask]
  simp [protect, hauth, postTask, newTodo, spreadOwner, castPath, e9, insertTodo, getTasks,
    putTask, hid, ownedBy, assignBody, castBoolean, Delta.apply, updateOne, deleteTask]

theorem C16_scenario_witness :
    scenario demoLib (.num 0) 1 16 7 (fun k => k)
      = { register := ⟨201, .message "User registered successfully!"⟩
          login := ⟨200, .session "000000000000000000000001" 1 "alice" "Login successful."⟩
          create := ⟨201, .todo ⟨16, "buy milk", some false, 1⟩⟩
          list1 := ⟨200, .todos [⟨16, "buy milk", some false, 1⟩]⟩
          update := ⟨200, .todo ⟨16, "buy milk", some true, 1⟩⟩
          list2 := ⟨200, .todos [⟨16, "buy milk", some true, 1⟩]⟩
          delete := ⟨200, .todo ⟨16, "buy milk", some true, 1⟩⟩
          list3 := ⟨200, .todos []⟩ } :=
  C16_scenario demoLib (.num 0) 0 1 16 7 (fun k => k) rfl (by decide) (by decide)
    (fun _ _ _ => rfl) (fun k h2 h7 => ⟨by show 1 ≤ k; omega, by show k < 1 + 3600; omega⟩) (by norm_num) (by norm_num)

end TodoApp
